import Mathlib

/-!
# Day-end run of `ssrdive/sprinter`: shallow embedding and properties

Embedding of `src/run.go` (package `sprinter`) and of the SQL statements of
`src/queries/queries.go`.

Modelling conventions.

* Numeric columns and the Go fields scanned from them hold the stored value, a
  rational `ℚ`.  The arithmetic of the store (`capital_arrears + ?`, `SUM`, `ROUND`)
  and the amounts that leave Go through `fmt.Sprintf("%f", x)` or as statement
  arguments are taken on these values exactly.
* The age of arrears, which decides the branch of the decision chain, is computed as
  Go computes it, in IEEE-754 binary64: each field is rounded to the nearest
  `float64` (as `Scan` does), and each addition and the division is rounded to
  nearest, ties to even (`rnd64`, `Age.add`, `Age.div`).  The result is an `Age`: a
  finite number, `+Inf`, `-Inf` or `NaN`.  A zero is taken as `+0`, and a stored value
  beyond the binary64 range, which no numeric column holds, rounds to an infinity.
* Dates (`string` in Go, `DATE` in SQL) are day numbers `Nat`.
* `fmt.Sprintf("%f", x)` is modelled by `some x`, the empty string by `none`;
  `fmt.Sprintf("%d", account)` by the account number itself.
* The relational store is a record of four tables, each a list of rows.  Every
  data-access operation goes through `access`, which appends the operation and its
  outcome to a log and fails when the fault oracle `F` says so.
-/

namespace Sprinter

/-! ## Data model (`run.go`, lines 14-81) -/

/-- ContractScheduleDueRental holds daily installments that need to be issued
income journal entries (`run.go:16`). -/
structure ContractScheduleDueRental where
  ID : Int
  ContractID : Int
  Capital : ℚ
  Interest : ℚ
  MonthlyDate : Nat
deriving DecidableEq

/-- ContractFinancial holds the financial summary of a contract (`run.go:26`). -/
structure ContractFinancial where
  Active : Int
  RecoveryStatus : Int
  Doubtful : Int
  Payment : ℚ
  CapitalArrears : ℚ
  InterestArrears : ℚ
  CapitalProvisioned : ℚ
  ScheduleEndDate : Nat
deriving DecidableEq

/-- JournalEntry holds a journal entry (`run.go:39`); `none` is the empty string. -/
structure JournalEntry where
  Account : Int
  Debit : Option ℚ
  Credit : Option ℚ
deriving DecidableEq

/-- UpdatedContract holds details of updates done (`run.go:46`). -/
structure UpdatedContract where
  ContractID : Int
  RecoveryStatus : Int
  UpdatedRecoveryStatus : Int
deriving DecidableEq

abbrev UnearnedInterestAccount : Int := 188
abbrev InterestIncomeAccount : Int := 190
abbrev ReceivableAccount : Int := 185
abbrev ReceivableArrearsAccount : Int := 192
abbrev SuspenseInterestAccount : Int := 194
abbrev BadDebtProvisionAccount : Int := 195
abbrev ProvisionForBadDebtAccount : Int := 196

abbrev RecoveryStatusActive : Int := 1
abbrev RecoveryStatusArrears : Int := 2
abbrev RecoveryStatusNPL : Int := 3
abbrev RecoveryStatusBDP : Int := 4

abbrev DoubtfulStatusYes : Int := 1
abbrev DoubtfulStatusNo : Int := 0

/-! ## Journal entry builders (`run.go`, lines 283-312) -/

/-- The `intrType` argument of `interestJEs`: the two strings the function tests
for, and any other string. -/
inductive IntrType where
  | Income
  | Suspense
  | Other
deriving DecidableEq

/-- Builder `incomeToSuspenseJEs` (`run.go:283`). -/
def incomeToSuspenseJEs (interest : ℚ) : List JournalEntry :=
  [⟨InterestIncomeAccount, some interest, none⟩,
   ⟨SuspenseInterestAccount, none, some interest⟩]

/-- Builder `suspenseJEs` (`run.go:288`). -/
def suspenseJEs (interest : ℚ) : List JournalEntry :=
  [⟨UnearnedInterestAccount, some interest, none⟩,
   ⟨SuspenseInterestAccount, none, some interest⟩]

/-- Builder `interestJEs` (`run.go:293`). -/
def interestJEs (intrType : IntrType) (rental : ContractScheduleDueRental) :
    List JournalEntry :=
  let journalEntries : List JournalEntry :=
    [⟨ReceivableArrearsAccount, some (rental.Capital + rental.Interest), none⟩,
     ⟨ReceivableAccount, none, some (rental.Capital + rental.Interest)⟩]
  if intrType = IntrType.Income then
    journalEntries ++
      [⟨UnearnedInterestAccount, some rental.Interest, none⟩,
       ⟨InterestIncomeAccount, none, some rental.Interest⟩]
  else if intrType = IntrType.Suspense then
    journalEntries ++ suspenseJEs rental.Interest
  else journalEntries

/-- Builder `capitalProvisionJEs` (`run.go:306`). -/
def capitalProvisionJEs (capitalProvision : ℚ) : List JournalEntry :=
  [⟨BadDebtProvisionAccount, some capitalProvision, none⟩,
   ⟨ProvisionForBadDebtAccount, none, some capitalProvision⟩]

/-! ## Binary64 arithmetic and rounding -/

/-- The value of a `float64`: a finite number, an infinity or not-a-number. -/
inductive Age where
  | fin (q : ℚ)
  | posInf
  | negInf
  | nan
deriving DecidableEq

/-- Nearest integer of a non-negative rational, ties to the even one. -/
def roundHalfEven (y : ℚ) : ℤ :=
  if y - (⌊y⌋ : ℤ) < 1 / 2 then ⌊y⌋
  else if 1 / 2 < y - (⌊y⌋ : ℤ) then ⌊y⌋ + 1
  else if ⌊y⌋ % 2 = 0 then ⌊y⌋ else ⌊y⌋ + 1

/-- The product `x * 2 ^ k` for an integer exponent `k`. -/
def scale2 (x : ℚ) (k : ℤ) : ℚ :=
  if 0 ≤ k then x * ((2 ^ k.toNat : ℕ) : ℚ) else x / ((2 ^ (-k).toNat : ℕ) : ℚ)

/-- The number of halvings that bring `n` below 2, at most `fuel` of them. -/
def log2Fuel : Nat → Nat → Nat
  | 0, _ => 0
  | fuel + 1, n => if 2 ≤ n then log2Fuel fuel (n / 2) + 1 else 0

/-- The binary logarithm of a natural number, rounded down (0 for 0). -/
def natLog2 (n : Nat) : Nat := log2Fuel n n

/-- The binary exponent of a positive rational `a`: the `e` with
`2 ^ e <= a < 2 ^ (e + 1)`. -/
def ilog2 (a : ℚ) : ℤ :=
  if a < scale2 1 ((natLog2 a.num.natAbs : ℤ) - (natLog2 a.den : ℤ)) then
    (natLog2 a.num.natAbs : ℤ) - (natLog2 a.den : ℤ) - 1
  else (natLog2 a.num.natAbs : ℤ) - (natLog2 a.den : ℤ)

/-- The exponent of the unit in the last place of the binary64 numbers around a
positive rational `a`: 53 significant bits, and `2 ^ (-1074)` for the subnormals. -/
def ulpExp (a : ℚ) : ℤ := max (ilog2 a - 52) (-1074)

/-- Rounding of a rational to binary64, to nearest, ties to even; a magnitude that
rounds to `2 ^ 1024` or more overflows to an infinity.  This is the value
`strconv.ParseFloat` gives for a decimal and the result of a `float64` operation
whose exact result is `x`. -/
def rnd64 (x : ℚ) : Age :=
  if x = 0 then Age.fin 0
  else if scale2 1 1024 ≤
      scale2 (roundHalfEven (scale2 |x| (-ulpExp |x|)) : ℚ) (ulpExp |x|) then
    (if 0 < x then Age.posInf else Age.negInf)
  else if 0 < x then
    Age.fin (scale2 (roundHalfEven (scale2 |x| (-ulpExp |x|)) : ℚ) (ulpExp |x|))
  else Age.fin (-scale2 (roundHalfEven (scale2 |x| (-ulpExp |x|)) : ℚ) (ulpExp |x|))

/-- Go's `a + b` on `float64`. -/
def Age.add (a b : Age) : Age :=
  match a, b with
  | Age.fin x, Age.fin y => rnd64 (x + y)
  | Age.nan, _ => Age.nan
  | _, Age.nan => Age.nan
  | Age.posInf, Age.negInf => Age.nan
  | Age.negInf, Age.posInf => Age.nan
  | Age.posInf, _ => Age.posInf
  | _, Age.posInf => Age.posInf
  | Age.negInf, _ => Age.negInf
  | _, Age.negInf => Age.negInf

/-- Go's `a / b` on `float64`: division of a non-zero number by zero gives an
infinity, `0 / 0` and `Inf / Inf` give `NaN`. -/
def Age.div (a b : Age) : Age :=
  match a, b with
  | Age.nan, _ => Age.nan
  | _, Age.nan => Age.nan
  | Age.fin x, Age.fin y =>
    if y ≠ 0 then rnd64 (x / y)
    else if 0 < x then Age.posInf
    else if x < 0 then Age.negInf
    else Age.nan
  | Age.fin _, Age.posInf => Age.fin 0
  | Age.fin _, Age.negInf => Age.fin 0
  | Age.posInf, Age.fin y => if 0 ≤ y then Age.posInf else Age.negInf
  | Age.negInf, Age.fin y => if 0 ≤ y then Age.negInf else Age.posInf
  | Age.posInf, Age.posInf => Age.nan
  | Age.posInf, Age.negInf => Age.nan
  | Age.negInf, Age.posInf => Age.nan
  | Age.negInf, Age.negInf => Age.nan

/-- Comparison `a <= q`; every comparison with `NaN` is false. -/
def Age.le (a : Age) (q : ℚ) : Bool :=
  match a with
  | Age.fin x => decide (x ≤ q)
  | Age.posInf => false
  | Age.negInf => true
  | Age.nan => false

/-- Comparison `a < q`. -/
def Age.lt (a : Age) (q : ℚ) : Bool :=
  match a with
  | Age.fin x => decide (x < q)
  | Age.posInf => false
  | Age.negInf => true
  | Age.nan => false

/-- Comparison `a >= q`. -/
def Age.ge (a : Age) (q : ℚ) : Bool :=
  match a with
  | Age.fin x => decide (q ≤ x)
  | Age.posInf => true
  | Age.negInf => false
  | Age.nan => false

/-- Comparison `a > q`. -/
def Age.gt (a : Age) (q : ℚ) : Bool :=
  match a with
  | Age.fin x => decide (q < x)
  | Age.posInf => true
  | Age.negInf => false
  | Age.nan => false

/-- Go's `math.Round`: nearest integer, halves away from zero. -/
def mathRound (x : ℚ) : ℚ :=
  if x < 0 then -((⌊-x + 1 / 2⌋ : ℤ) : ℚ) else ((⌊x + 1 / 2⌋ : ℤ) : ℚ)

/-- SQL `ROUND(x, 2)` on an exact value: two decimals, halves away from zero. -/
def sqlRound2 (x : ℚ) : ℚ := mathRound (x * 100) / 100

/-! ## The relational store (`queries.go`) -/

/-- A row of `contract_schedule` (the columns the statements touch). -/
structure ScheduleRow where
  id : Int
  contract_id : Int
  capital : ℚ
  interest : ℚ
  capital_paid : ℚ
  monthly_date : Nat
  daily_entry_issued : Int
  contract_installment_type_id : Int
deriving DecidableEq

/-- A row of `contract_financial`. -/
structure FinancialRow where
  contract_id : Int
  active : Int
  recovery_status_id : Int
  doubtful : Int
  payment : ℚ
  capital_arrears : ℚ
  interest_arrears : ℚ
  capital_provisioned : ℚ
  financial_schedule_end_date : Nat
deriving DecidableEq

/-- A row of `transaction`: the header of a day-end posting.  The remark
`DAY END <rental id> [<contract id>]` is kept as the rental id; the two
timestamps are left out. -/
structure TransactionRow where
  id : Int
  user_id : Int
  contract_id : Int
  remark_rental : Int
deriving DecidableEq

/-- The type tag of a ledger row. -/
inductive EntryType where
  | DR
  | CR
deriving DecidableEq

/-- A row of `account_transaction`: one ledger posting. -/
structure AccountTransactionRow where
  transaction_id : Int
  account_id : Int
  type : EntryType
  amount : ℚ
deriving DecidableEq

/-- The four tables the run reads and writes. -/
structure Store where
  contract_schedule : List ScheduleRow
  contract_financial : List FinancialRow
  transaction : List TransactionRow
  account_transaction : List AccountTransactionRow
deriving DecidableEq

namespace queries

/-- The columns `DueRentals` selects from a schedule row. -/
def toDueRental (r : ScheduleRow) : ContractScheduleDueRental :=
  ⟨r.id, r.contract_id, r.capital, r.interest, r.monthly_date⟩

/-- Clause `ORDER BY CS.contract_id ASC, CS.monthly_date ASC`. -/
def orderBefore (a b : ScheduleRow) : Prop :=
  a.contract_id < b.contract_id ∨
    (a.contract_id = b.contract_id ∧ a.monthly_date ≤ b.monthly_date)

instance : DecidableRel orderBefore := fun a b => by
  unfold orderBefore; exact inferInstance

/-- Statement `DueRentals` (`queries.go:4`). -/
def DueRentals (s : Store) (date : Nat) : List ContractScheduleDueRental :=
  ((s.contract_schedule.filter (fun r =>
      decide (r.daily_entry_issued = 0 ∧ r.monthly_date ≤ date ∧
        r.contract_installment_type_id = 1))).insertionSort orderBefore).map toDueRental

/-- Statement `DueRentalsByContract` (`queries.go:11`). -/
def DueRentalsByContract (s : Store) (date : Nat) (contract : Int) :
    List ContractScheduleDueRental :=
  ((s.contract_schedule.filter (fun r =>
      decide (r.daily_entry_issued = 0 ∧ r.monthly_date ≤ date ∧
        r.contract_installment_type_id = 1 ∧ r.contract_id = contract))).insertionSort
    orderBefore).map toDueRental

/-- The columns `ContractFinancial` selects from a financial row. -/
def toContractFinancial (r : FinancialRow) : Sprinter.ContractFinancial :=
  ⟨r.active, r.recovery_status_id, r.doubtful, r.payment, r.capital_arrears,
    r.interest_arrears, r.capital_provisioned, r.financial_schedule_end_date⟩

/-- Statement `ContractFinancial` (`queries.go:18`) read with `QueryRow`: the first
matching row, or nothing. -/
def ContractFinancial (s : Store) (contract : Int) : Option Sprinter.ContractFinancial :=
  (s.contract_financial.find? (fun r => decide (r.contract_id = contract))).map
    toContractFinancial

/-- The rows both provision statements aggregate:
`WHERE CS.contract_id = ? AND CS.contract_installment_type_id = 1`. -/
def rentalRows (s : Store) (contract : Int) : List ScheduleRow :=
  s.contract_schedule.filter (fun r =>
    decide (r.contract_id = contract ∧ r.contract_installment_type_id = 1))

/-- Aggregate `SUM(CS.capital-CS.capital_paid)` over the rows of a contract. -/
def outstandingCapital (s : Store) (contract : Int) : ℚ :=
  ((rentalRows s contract).map (fun r => r.capital - r.capital_paid)).sum

/-- Statement `NplCapitalProvision` (`queries.go:36`): with `GROUP BY` there is a
result row only when some row matches. -/
def NplCapitalProvision (s : Store) (contract : Int) : Option ℚ :=
  if rentalRows s contract = [] then none
  else some (sqlRound2 (outstandingCapital s contract / 2))

/-- Statement `CapitalReceivable` (`queries.go:51`). -/
def CapitalReceivable (s : Store) (contract : Int) : Option ℚ :=
  if rentalRows s contract = [] then none
  else some (outstandingCapital s contract)

/-- Apply `f` to the financial rows of a contract: `UPDATE contract_financial SET ...
WHERE contract_id = ?`. -/
def updateFinancial (s : Store) (contract : Int) (f : FinancialRow → FinancialRow) :
    Store :=
  { s with contract_financial :=
      s.contract_financial.map (fun r => if r.contract_id = contract then f r else r) }

/-- Statement `UpdateRecoveryStatus` (`queries.go:24`). -/
def UpdateRecoveryStatus (s : Store) (status contract : Int) : Store :=
  updateFinancial s contract (fun r => { r with recovery_status_id := status })

/-- Statement `UpdateRecoveryDoubtfulStatus` (`queries.go:32`). -/
def UpdateRecoveryDoubtfulStatus (s : Store) (status doubtful contract : Int) : Store :=
  updateFinancial s contract
    (fun r => { r with recovery_status_id := status, doubtful := doubtful })

/-- Statement `UpdateCapitalProvisioned` (`queries.go:43`). -/
def UpdateCapitalProvisioned (s : Store) (amount : ℚ) (contract : Int) : Store :=
  updateFinancial s contract
    (fun r => { r with capital_provisioned := r.capital_provisioned + amount })

/-- Statement `UpdateArrears` (`queries.go:64`). -/
def UpdateArrears (s : Store) (capital interest : ℚ) (contract : Int) : Store :=
  updateFinancial s contract
    (fun r => { r with capital_arrears := r.capital_arrears + capital,
                       interest_arrears := r.interest_arrears + interest })

/-- The `mysequel.Update` of `run.go:114`:
`UPDATE contract_financial SET active = 0 WHERE contract_id = ?`. -/
def UpdateActive (s : Store) (contract : Int) : Store :=
  updateFinancial s contract (fun r => { r with active := 0 })

/-- The `mysequel.Update` of `run.go:267`:
`UPDATE contract_schedule SET daily_entry_issued = 1 WHERE id = ?`. -/
def UpdateDailyEntryIssued (s : Store) (id : Int) : Store :=
  { s with contract_schedule := s.contract_schedule.map (fun r =>
      if r.id = id then { r with daily_entry_issued := 1 } else r) }

/-- The `mysequel.Insert` of `run.go:128`: a new `transaction` row; the returned id
is that of the new row. -/
def InsertTransaction (s : Store) (rental : ContractScheduleDueRental) : Int × Store :=
  let tid : Int := (s.transaction.length : Int) + 1
  (tid, { s with transaction := s.transaction ++ [⟨tid, 1, rental.ContractID, rental.ID⟩] })

/-- The `mysequel.Insert` of `run.go:317` and `run.go:328`: a new ledger row. -/
def InsertAccountTransaction (s : Store) (tid account : Int) (type : EntryType)
    (amount : ℚ) : Store :=
  { s with account_transaction := s.account_transaction ++ [⟨tid, account, type, amount⟩] }

end queries

/-! ## Data access with failures -/

/-- An error of a data-access operation: `sql.ErrNoRows` of a `Scan` without a
result row, or a failure of the store at the operation with the given number. -/
inductive Err where
  | noRows
  | fault (n : Nat)
deriving DecidableEq

/-- The data-access operations of `Run`, by statement. -/
inductive Op where
  | DueRentals
  | DueRentalsByContract
  | ContractFinancial
  | UpdateActive
  | InsertTransaction
  | UpdateRecoveryStatus
  | UpdateRecoveryDoubtfulStatus
  | NplCapitalProvision
  | CapitalReceivable
  | UpdateCapitalProvisioned
  | InsertAccountTransaction
  | UpdateArrears
  | UpdateDailyEntryIssued
deriving DecidableEq

deriving instance DecidableEq for Except

/-- The store together with the log of the operations attempted so far, each with
its outcome (`none` for success). -/
structure World where
  store : Store
  log : List (Op × Option Err)
deriving DecidableEq

/-- A computation on the transaction handle `tx`: from a world to the world it
leaves and either an error or a value. -/
def DB (α : Type) : Type := World → World × Except Err α

/-- Sequencing with Go's `if err != nil { return ... }`: an error ends the
computation in the world where it happened. -/
def DB.bind {α β : Type} (m : DB α) (f : α → DB β) : DB β := fun w =>
  match m w with
  | (w1, Except.ok a) => f a w1
  | (w1, Except.error e) => (w1, Except.error e)

instance : Monad DB where
  pure a := fun w => (w, Except.ok a)
  bind := DB.bind

/-- One data-access operation.  The oracle `F` tells whether the store fails at the
operation with the given number (its position in the log); otherwise `act` gives
the outcome on the current store.  The attempt is logged in either case. -/
def access {α : Type} (F : Nat → Bool) (op : Op) (act : Store → Except Err (α × Store)) :
    DB α := fun w =>
  if F w.log.length then
    (⟨w.store, w.log ++ [(op, some (Err.fault w.log.length))]⟩,
      Except.error (Err.fault w.log.length))
  else
    match act w.store with
    | Except.ok (a, s) => (⟨s, w.log ++ [(op, none)]⟩, Except.ok a)
    | Except.error e => (⟨w.store, w.log ++ [(op, some e)]⟩, Except.error e)

/-- A `QueryRow(...).Scan(...)`: a missing row is `sql.ErrNoRows`. -/
def scanRow {α : Type} (F : Nat → Bool) (op : Op) (q : Store → Option α) : DB α :=
  access F op (fun s =>
    match q s with
    | some a => Except.ok (a, s)
    | none => Except.error Err.noRows)

/-- A `tx.Exec` or `mysequel.Update`: an update of the store. -/
def exec (F : Nat → Bool) (op : Op) (f : Store → Store) : DB Unit :=
  access F op (fun s => Except.ok ((), f s))

/-! ## The day-end run (`run.go`, lines 84-340) -/

/-- Function `issueJournalEntries` (`run.go:314`): one ledger row for each non-empty
side of each entry. -/
def issueJournalEntries (F : Nat → Bool) (tid : Int) : List JournalEntry → DB Unit
  | [] => pure ()
  | entry :: rest => do
    (match entry.Debit with
      | some d =>
        exec F Op.InsertAccountTransaction
          (fun s => queries.InsertAccountTransaction s tid entry.Account EntryType.DR d)
      | none => pure ())
    (match entry.Credit with
      | some c =>
        exec F Op.InsertAccountTransaction
          (fun s => queries.InsertAccountTransaction s tid entry.Account EntryType.CR c)
      | none => pure ())
    issueJournalEntries F tid rest

/-- The age of arrears `nAge` of `run.go:182-183`, in `float64` arithmetic:
`arrears := cF.CapitalArrears + cF.InterestArrears` and
`nAge := (arrears + rental.Capital + rental.Interest) / cF.Payment`, the sums taken
from left to right. -/
def nAge (cF : ContractFinancial) (rental : ContractScheduleDueRental) : Age :=
  let arrears := Age.add (rnd64 cF.CapitalArrears) (rnd64 cF.InterestArrears)
  Age.div (Age.add (Age.add arrears (rnd64 rental.Capital)) (rnd64 rental.Interest))
    (rnd64 cF.Payment)

/-- The decision chain of `Run` (`run.go:182-255`) for one rental and the snapshot
`cF` read for it: performs the provision queries and the status and provision
updates of the branch taken, and returns `dayEndJEs` together with the value left
in `updatedContract.UpdatedRecoveryStatus`. -/
def decisionChain (F : Nat → Bool) (rental : ContractScheduleDueRental)
    (cF : ContractFinancial) : DB (List JournalEntry × Int) :=
  let nAge := nAge cF rental
  if cF.RecoveryStatus = RecoveryStatusActive ∧ nAge.le 0 then
    pure (interestJEs IntrType.Income rental, cF.RecoveryStatus)
  else if cF.RecoveryStatus = RecoveryStatusActive ∧ nAge.gt 0 then do
    exec F Op.UpdateRecoveryStatus
      (fun s => queries.UpdateRecoveryStatus s RecoveryStatusArrears rental.ContractID)
    pure (interestJEs IntrType.Income rental, RecoveryStatusArrears)
  else if cF.RecoveryStatus = RecoveryStatusArrears ∧ cF.Doubtful = 1 ∧ nAge.ge 6 then do
    let capitalProvision ← scanRow F Op.NplCapitalProvision
      (fun s => queries.NplCapitalProvision s rental.ContractID)
    exec F Op.UpdateRecoveryStatus
      (fun s => queries.UpdateRecoveryStatus s RecoveryStatusNPL rental.ContractID)
    exec F Op.UpdateCapitalProvisioned
      (fun s => queries.UpdateCapitalProvisioned s capitalProvision rental.ContractID)
    pure (capitalProvisionJEs capitalProvision ++ interestJEs IntrType.Suspense rental,
      RecoveryStatusNPL)
  else if cF.RecoveryStatus = RecoveryStatusArrears ∧ cF.Doubtful = 1 ∧ nAge.lt 6 then
    pure (interestJEs IntrType.Suspense rental, cF.RecoveryStatus)
  else if cF.RecoveryStatus = RecoveryStatusArrears ∧ cF.Doubtful = 0 ∧ nAge.ge 6 then do
    let capitalProvision ← scanRow F Op.NplCapitalProvision
      (fun s => queries.NplCapitalProvision s rental.ContractID)
    exec F Op.UpdateRecoveryDoubtfulStatus
      (fun s => queries.UpdateRecoveryDoubtfulStatus s RecoveryStatusNPL 1 rental.ContractID)
    exec F Op.UpdateCapitalProvisioned
      (fun s => queries.UpdateCapitalProvisioned s capitalProvision rental.ContractID)
    pure (capitalProvisionJEs capitalProvision ++ incomeToSuspenseJEs cF.InterestArrears ++
        interestJEs IntrType.Suspense rental,
      RecoveryStatusNPL)
  else if cF.RecoveryStatus = RecoveryStatusArrears ∧ cF.Doubtful = 0 ∧ nAge.lt 6 then
    pure (interestJEs IntrType.Income rental, cF.RecoveryStatus)
  else if cF.RecoveryStatus = RecoveryStatusNPL ∧ nAge.ge 12 then do
    let capitalReceivable ← scanRow F Op.CapitalReceivable
      (fun s => queries.CapitalReceivable s rental.ContractID)
    let capitalProvision := mathRound ((capitalReceivable - cF.CapitalProvisioned) * 100) / 100
    exec F Op.UpdateCapitalProvisioned
      (fun s => queries.UpdateCapitalProvisioned s capitalProvision rental.ContractID)
    exec F Op.UpdateRecoveryStatus
      (fun s => queries.UpdateRecoveryStatus s RecoveryStatusBDP rental.ContractID)
    pure (capitalProvisionJEs capitalProvision ++ interestJEs IntrType.Suspense rental,
      RecoveryStatusBDP)
  else if cF.RecoveryStatus = RecoveryStatusNPL ∧ nAge.lt 12 then
    pure (interestJEs IntrType.Suspense rental, cF.RecoveryStatus)
  else if cF.RecoveryStatus = RecoveryStatusBDP then
    pure (interestJEs IntrType.Suspense rental, cF.RecoveryStatus)
  else
    pure ([], cF.RecoveryStatus)

/-- The body of the loop of `Run` (`run.go:99-279`) for one rental. -/
def processRental (F : Nat → Bool) (rental : ContractScheduleDueRental) :
    DB UpdatedContract := do
  let cF ← scanRow F Op.ContractFinancial
    (fun s => queries.ContractFinancial s rental.ContractID)
  (if cF.ScheduleEndDate = rental.MonthlyDate then
    exec F Op.UpdateActive (fun s => queries.UpdateActive s rental.ContractID)
  else pure ())
  let tid ← access F Op.InsertTransaction
    (fun s => Except.ok (queries.InsertTransaction s rental))
  let (dayEndJEs, updatedRecoveryStatus) ← decisionChain F rental cF
  issueJournalEntries F tid dayEndJEs
  exec F Op.UpdateArrears
    (fun s => queries.UpdateArrears s rental.Capital rental.Interest rental.ContractID)
  exec F Op.UpdateDailyEntryIssued (fun s => queries.UpdateDailyEntryIssued s rental.ID)
  pure ⟨rental.ContractID, cF.RecoveryStatus, updatedRecoveryStatus⟩

/-- The loop `for _, rental := range dueRentals` of `Run`, with `updatedContracts`
as accumulator. -/
def runLoop (F : Nat → Bool) :
    List ContractScheduleDueRental → List UpdatedContract → DB (List UpdatedContract)
  | [], updatedContracts => pure updatedContracts
  | rental :: rest, updatedContracts => do
    let updatedContract ← processRental F rental
    runLoop F rest (updatedContracts ++ [updatedContract])

/-- The three results of `Run`; `none` is Go's `nil`. -/
structure RunResult where
  updatedContracts : Option (List UpdatedContract)
  duration : Nat
  err : Option Err
deriving DecidableEq

/-- The loading of `dueRentals` (`run.go:88-92`). -/
def loadDueRentals (F : Nat → Bool) (date : Nat) (contract : Int) (manual : Bool) :
    DB (List ContractScheduleDueRental) :=
  if manual then
    access F Op.DueRentalsByContract
      (fun s => Except.ok (queries.DueRentalsByContract s date contract, s))
  else
    access F Op.DueRentals (fun s => Except.ok (queries.DueRentals s date, s))

/-- Function `Run` (`run.go:84`).  `sinceStart` is the value `time.Since(start)` has
at the final `return`; the `err` returned there is the one declared at `run.go:86`,
which is `nil` whenever the loop has run to its end. -/
def Run (F : Nat → Bool) (sinceStart : Nat) (date : Nat) (contract : Int) (manual : Bool)
    (w : World) : World × RunResult :=
  match (loadDueRentals F date contract manual >>= fun dueRentals =>
      runLoop F dueRentals []) w with
  | (w1, Except.ok updatedContracts) => (w1, ⟨some updatedContracts, sinceStart, none⟩)
  | (w1, Except.error e) => (w1, ⟨none, 0, some e⟩)

/-! ## Vocabulary of the properties -/

/-- Total of the debit sides of a list of journal entries. -/
def totalDebit (l : List JournalEntry) : ℚ := (l.map (fun e => e.Debit.getD 0)).sum

/-- Total of the credit sides of a list of journal entries. -/
def totalCredit (l : List JournalEntry) : ℚ := (l.map (fun e => e.Credit.getD 0)).sum

/-- The ledger rows `issueJournalEntries` writes for a list of entries. -/
def ledgerRows (tid : Int) : List JournalEntry → List AccountTransactionRow
  | [] => []
  | entry :: rest =>
    (match entry.Debit with
      | some d => [⟨tid, entry.Account, EntryType.DR, d⟩]
      | none => []) ++
    (match entry.Credit with
      | some c => [⟨tid, entry.Account, EntryType.CR, c⟩]
      | none => []) ++
    ledgerRows tid rest

/-- The store with ledger rows appended to `account_transaction`. -/
def addLedger (s : Store) (rows : List AccountTransactionRow) : Store :=
  { s with account_transaction := s.account_transaction ++ rows }

/-- An oracle under which the store never fails. -/
def noFault : Nat → Bool := fun _ => false


/-! ## Concrete stores for the scenarios -/

/-- A schedule of contract 1: two unissued rentals of capital 50 and interest 10,
due on days 20 and 50, nothing paid. -/
def exSchedule : List ScheduleRow :=
  [⟨7, 1, 50, 10, 0, 20, 0, 1⟩, ⟨8, 1, 50, 10, 0, 50, 0, 1⟩]

/-- A store with the schedule `exSchedule` and one financial row for contract 1. -/
def exStore (status doubtful : Int) (payment capitalArrears interestArrears
    capitalProvisioned : ℚ) : Store :=
  ⟨exSchedule,
   [⟨1, 1, status, doubtful, payment, capitalArrears, interestArrears, capitalProvisioned, 99⟩],
   [], []⟩

/-- The snapshot `ContractFinancial` reads from `exStore`. -/
def exSnapshot (status doubtful : Int) (payment capitalArrears interestArrears
    capitalProvisioned : ℚ) : ContractFinancial :=
  ⟨1, status, doubtful, payment, capitalArrears, interestArrears, capitalProvisioned, 99⟩

/-- The first rental of `exSchedule` as the loader returns it. -/
def exRental : ContractScheduleDueRental := ⟨7, 1, 50, 10, 20⟩

/-- The second rental of `exSchedule`. -/
def exRental2 : ContractScheduleDueRental := ⟨8, 1, 50, 10, 50⟩

/-- Scenario A: Active, payment 100, no arrears. -/
def scenarioA : World := ⟨exStore 1 0 100 0 0 0, []⟩

/-- Scenario B: Arrears, doubtful, payment 100, arrears 500. -/
def scenarioB : World := ⟨exStore 2 1 100 400 100 0, []⟩

/-- Scenario C: NPL, payment 100, arrears 1150, 20 already provisioned. -/
def scenarioC : World := ⟨exStore 3 1 100 1000 150 20, []⟩

/-- Arrears, not doubtful, payment 100, arrears 550 of which 100 interest. -/
def scenarioR : World := ⟨exStore 2 0 100 450 100 0, []⟩

/-- The schedule `exSchedule` once the first rental is flagged issued. -/
def exScheduleIssued : List ScheduleRow :=
  [⟨7, 1, 50, 10, 0, 20, 1, 1⟩, ⟨8, 1, 50, 10, 0, 50, 0, 1⟩]

/-- Scenario A after the first rental: status Arrears, arrears 50 and 10, four
ledger rows. -/
def scenarioAafter : World :=
  ⟨⟨exScheduleIssued, [⟨1, 1, 2, 0, 100, 50, 10, 0, 99⟩], [⟨1, 1, 1, 7⟩],
      [⟨1, 192, EntryType.DR, 60⟩, ⟨1, 185, EntryType.CR, 60⟩,
       ⟨1, 188, EntryType.DR, 10⟩, ⟨1, 190, EntryType.CR, 10⟩]⟩,
    [(Op.ContractFinancial, none), (Op.InsertTransaction, none),
      (Op.UpdateRecoveryStatus, none)] ++
    List.replicate 4 (Op.InsertAccountTransaction, none) ++
    [(Op.UpdateArrears, none), (Op.UpdateDailyEntryIssued, none)]⟩

/-- Scenario C after the first rental: status BDP, provision topped up by 80. -/
def scenarioCafter : World :=
  ⟨⟨exScheduleIssued, [⟨1, 1, 4, 1, 100, 1050, 160, 100, 99⟩], [⟨1, 1, 1, 7⟩],
      [⟨1, 195, EntryType.DR, 80⟩, ⟨1, 196, EntryType.CR, 80⟩,
       ⟨1, 192, EntryType.DR, 60⟩, ⟨1, 185, EntryType.CR, 60⟩,
       ⟨1, 188, EntryType.DR, 10⟩, ⟨1, 194, EntryType.CR, 10⟩]⟩,
    [(Op.ContractFinancial, none), (Op.InsertTransaction, none),
      (Op.CapitalReceivable, none), (Op.UpdateCapitalProvisioned, none),
      (Op.UpdateRecoveryStatus, none)] ++
    List.replicate 6 (Op.InsertAccountTransaction, none) ++
    [(Op.UpdateArrears, none), (Op.UpdateDailyEntryIssued, none)]⟩

/-- Scenario `scenarioR` after the first rental: status NPL, doubtful, 50
provisioned, eight ledger rows. -/
def scenarioRafter : World :=
  ⟨⟨exScheduleIssued, [⟨1, 1, 3, 1, 100, 500, 110, 50, 99⟩], [⟨1, 1, 1, 7⟩],
      [⟨1, 195, EntryType.DR, 50⟩, ⟨1, 196, EntryType.CR, 50⟩,
       ⟨1, 190, EntryType.DR, 100⟩, ⟨1, 194, EntryType.CR, 100⟩,
       ⟨1, 192, EntryType.DR, 60⟩, ⟨1, 185, EntryType.CR, 60⟩,
       ⟨1, 188, EntryType.DR, 10⟩, ⟨1, 194, EntryType.CR, 10⟩]⟩,
    [(Op.ContractFinancial, none), (Op.InsertTransaction, none),
      (Op.NplCapitalProvision, none), (Op.UpdateRecoveryDoubtfulStatus, none),
      (Op.UpdateCapitalProvisioned, none)] ++
    List.replicate 8 (Op.InsertAccountTransaction, none) ++
    [(Op.UpdateArrears, none), (Op.UpdateDailyEntryIssued, none)]⟩

/-- NPL, payment 100, arrears 1150, and 150 provisioned against an outstanding
capital of 100. -/
def scenarioOver : World := ⟨exStore 3 1 100 1000 150 150, []⟩

/-- Scenario `scenarioOver` after the first rental: the provision is down to 100. -/
def scenarioOverAfter : World :=
  ⟨⟨exScheduleIssued, [⟨1, 1, 4, 1, 100, 1050, 160, 100, 99⟩], [⟨1, 1, 1, 7⟩],
      [⟨1, 195, EntryType.DR, -50⟩, ⟨1, 196, EntryType.CR, -50⟩,
       ⟨1, 192, EntryType.DR, 60⟩, ⟨1, 185, EntryType.CR, 60⟩,
       ⟨1, 188, EntryType.DR, 10⟩, ⟨1, 194, EntryType.CR, 10⟩]⟩,
    [(Op.ContractFinancial, none), (Op.InsertTransaction, none),
      (Op.CapitalReceivable, none), (Op.UpdateCapitalProvisioned, none),
      (Op.UpdateRecoveryStatus, none)] ++
    List.replicate 6 (Op.InsertAccountTransaction, none) ++
    [(Op.UpdateArrears, none), (Op.UpdateDailyEntryIssued, none)]⟩

/-- A contract in Arrears whose age is exactly 6 as a quotient of the stored
decimals, (11349.70 + 7966.80 + 2269.94 + 1593.36) / 3863.30, and
5.999999999999999 in `float64`. -/
def boundarySix (doubtful : Int) : World :=
  ⟨⟨[⟨7, 1, 226994 / 100, 159336 / 100, 0, 20, 0, 1⟩],
      [⟨1, 1, 2, doubtful, 386330 / 100, 1134970 / 100, 796680 / 100, 0, 99⟩], [], []⟩, []⟩

/-- The rental of `boundarySix`. -/
def boundarySixRental : ContractScheduleDueRental :=
  ⟨7, 1, 226994 / 100, 159336 / 100, 20⟩

/-- An NPL contract whose age is exactly 12 as a quotient of the stored decimals,
(37589.42 + 10957.43 + 3417.22 + 996.13) / 4413.35, and 11.999999999999998 in
`float64`. -/
def boundaryTwelve : World :=
  ⟨⟨[⟨7, 1, 341722 / 100, 99613 / 100, 0, 20, 0, 1⟩],
      [⟨1, 1, 3, 1, 441335 / 100, 3758942 / 100, 1095743 / 100, 0, 99⟩], [], []⟩, []⟩

/-- The rental of `boundaryTwelve`. -/
def boundaryTwelveRental : ContractScheduleDueRental :=
  ⟨7, 1, 341722 / 100, 99613 / 100, 20⟩

/-- The log discipline of a computation: from any world it appends to the log;
when it returns a value every appended operation succeeded, and when it returns an
error `e` every appended operation but the last succeeded and the last one failed
with `e`. -/
def LogOK {α : Type} (m : DB α) : Prop :=
  ∀ w : World,
    match m w with
    | (w', Except.ok _) => ∃ ops, w'.log = w.log ++ ops ∧ ∀ o ∈ ops, o.2 = none
    | (w', Except.error e) =>
      ∃ pre op, w'.log = w.log ++ (pre ++ [(op, some e)]) ∧ ∀ o ∈ pre, o.2 = none

/-- Sum of the capital of the rentals of contract `c` in a list. -/
def capitalOf (c : Int) (l : List ContractScheduleDueRental) : ℚ :=
  ((l.filter (fun q => decide (q.ContractID = c))).map (fun q => q.Capital)).sum

/-- Sum of the interest of the rentals of contract `c` in a list. -/
def interestOf (c : Int) (l : List ContractScheduleDueRental) : ℚ :=
  ((l.filter (fun q => decide (q.ContractID = c))).map (fun q => q.Interest)).sum

/-- The installments `loadDueRentals` selects on a store. -/
def dueRentalsOf (s : Store) (date : Nat) (contract : Int) (manual : Bool) :
    List ContractScheduleDueRental :=
  if manual = true then queries.DueRentalsByContract s date contract
  else queries.DueRentals s date
/-! ## The data-access monad: successful computations -/

theorem DB.pure_apply {α : Type} (a : α) (w : World) :
    (pure a : DB α) w = (w, Except.ok a) := rfl

theorem DB.bind_apply {α β : Type} (m : DB α) (f : α → DB β) (w : World) :
    (m >>= f) w = match m w with
      | (w1, Except.ok a) => f a w1
      | (w1, Except.error e) => (w1, Except.error e) := rfl

theorem DB.pure_ok_iff {α : Type} (a b : α) (w w' : World) :
    (pure a : DB α) w = (w', Except.ok b) ↔ w' = w ∧ b = a := by
  rw [DB.pure_apply]
  constructor
  · intro h; cases h; exact ⟨rfl, rfl⟩
  · rintro ⟨rfl, rfl⟩; rfl

theorem DB.bind_ok_iff {α β : Type} (m : DB α) (f : α → DB β) (w w' : World) (b : β) :
    (m >>= f) w = (w', Except.ok b) ↔
      ∃ a w1, m w = (w1, Except.ok a) ∧ f a w1 = (w', Except.ok b) := by
  rw [DB.bind_apply]
  rcases h : m w with ⟨w1, a | a⟩
  · simp
  · simp only [Prod.mk.injEq, Except.ok.injEq]
    constructor
    · intro hf; exact ⟨a, w1, ⟨rfl, rfl⟩, hf⟩
    · rintro ⟨a1, w2, ⟨rfl, rfl⟩, hf⟩; exact hf

theorem access_ok_iff {α : Type} (F : Nat → Bool) (op : Op)
    (act : Store → Except Err (α × Store)) (w w' : World) (a : α) :
    access F op act w = (w', Except.ok a) ↔
      F w.log.length = false ∧ ∃ s, act w.store = Except.ok (a, s) ∧
        w' = ⟨s, w.log ++ [(op, none)]⟩ := by
  unfold access
  by_cases hF : F w.log.length = true
  · simp [hF]
  · simp only [hF, Bool.false_eq_true, if_false]
    rcases h : act w.store with e | ⟨a1, s1⟩
    · simp
    · simp only [Prod.mk.injEq, Except.ok.injEq, Bool.not_eq_true]
      constructor
      · rintro ⟨rfl, rfl⟩; exact ⟨by simp [hF], s1, ⟨rfl, rfl⟩, rfl⟩
      · rintro ⟨-, s, ⟨rfl, rfl⟩, rfl⟩; exact ⟨rfl, rfl⟩

theorem exec_ok_iff (F : Nat → Bool) (op : Op) (f : Store → Store) (w w' : World) (u : Unit) :
    exec F op f w = (w', Except.ok u) ↔
      F w.log.length = false ∧ w' = ⟨f w.store, w.log ++ [(op, none)]⟩ := by
  unfold exec
  rw [access_ok_iff]
  simp

theorem scanRow_ok_iff {α : Type} (F : Nat → Bool) (op : Op) (q : Store → Option α)
    (w w' : World) (a : α) :
    scanRow F op q w = (w', Except.ok a) ↔
      F w.log.length = false ∧ q w.store = some a ∧ w' = ⟨w.store, w.log ++ [(op, none)]⟩ := by
  unfold scanRow
  rw [access_ok_iff]
  rcases h : q w.store with _ | a1
  · simp
  · simp only [Except.ok.injEq, Prod.mk.injEq, Option.some.injEq]
    constructor
    · rintro ⟨hF, s, ⟨rfl, rfl⟩, rfl⟩; exact ⟨hF, rfl, rfl⟩
    · rintro ⟨hF, rfl, rfl⟩; exact ⟨hF, _, ⟨rfl, rfl⟩, rfl⟩


theorem access_error_store {α : Type} (F : Nat → Bool) (op : Op)
    (act : Store → Except Err (α × Store)) (w w' : World) (e : Err)
    (h : access F op act w = (w', Except.error e)) : w'.store = w.store := by
  unfold access at h
  by_cases hF : F w.log.length = true
  · simp only [hF, if_true, Prod.mk.injEq] at h
    rw [← h.1]
  · simp only [hF, Bool.false_eq_true, if_false] at h
    rcases hact : act w.store with e1 | ⟨a, s⟩
    · rw [hact] at h
      simp only [Prod.mk.injEq] at h
      rw [← h.1]
    · rw [hact] at h
      simp at h

/-! ## Comparisons of ages -/

theorem Age.not_le_and_gt (a : Age) (q : ℚ) : ¬(a.le q = true ∧ a.gt q = true) := by
  cases a <;> simp [Age.le, Age.gt]

theorem Age.not_ge_and_lt (a : Age) (q : ℚ) : ¬(a.ge q = true ∧ a.lt q = true) := by
  cases a <;> simp [Age.ge, Age.lt]

theorem Age.le_or_gt (a : Age) (q : ℚ) (h : a ≠ Age.nan) : a.le q = true ∨ a.gt q = true := by
  cases a <;> simp_all [Age.le, Age.gt]
  exact le_or_lt _ _

theorem Age.ge_or_lt (a : Age) (q : ℚ) (h : a ≠ Age.nan) : a.ge q = true ∨ a.lt q = true := by
  cases a <;> simp_all [Age.ge, Age.lt]
  exact le_or_lt _ _

/-! ## The decision chain, row by row -/

/-- A successful pass through the decision chain took one of its nine rows, or
none; each case gives the row condition, the store left, the entries and the
status reported. -/
theorem decisionChain_ok {F : Nat → Bool} {rental : ContractScheduleDueRental}
    {cF : ContractFinancial} {w w' : World} {jes : List JournalEntry} {st : Int}
    (h : decisionChain F rental cF w = (w', Except.ok (jes, st))) :
    (cF.RecoveryStatus = 1 ∧ (nAge cF rental).le 0 = true ∧ w'.store = w.store ∧
        jes = interestJEs IntrType.Income rental ∧ st = cF.RecoveryStatus) ∨
    (cF.RecoveryStatus = 1 ∧ (nAge cF rental).gt 0 = true ∧
        w'.store = queries.UpdateRecoveryStatus w.store 2 rental.ContractID ∧
        jes = interestJEs IntrType.Income rental ∧ st = 2) ∨
    (cF.RecoveryStatus = 2 ∧ cF.Doubtful = 1 ∧ (nAge cF rental).ge 6 = true ∧
        ∃ p, queries.NplCapitalProvision w.store rental.ContractID = some p ∧
          w'.store = queries.UpdateCapitalProvisioned
            (queries.UpdateRecoveryStatus w.store 3 rental.ContractID) p rental.ContractID ∧
          jes = capitalProvisionJEs p ++ interestJEs IntrType.Suspense rental ∧ st = 3) ∨
    (cF.RecoveryStatus = 2 ∧ cF.Doubtful = 1 ∧ (nAge cF rental).lt 6 = true ∧
        w'.store = w.store ∧ jes = interestJEs IntrType.Suspense rental ∧
        st = cF.RecoveryStatus) ∨
    (cF.RecoveryStatus = 2 ∧ cF.Doubtful = 0 ∧ (nAge cF rental).ge 6 = true ∧
        ∃ p, queries.NplCapitalProvision w.store rental.ContractID = some p ∧
          w'.store = queries.UpdateCapitalProvisioned
            (queries.UpdateRecoveryDoubtfulStatus w.store 3 1 rental.ContractID) p
            rental.ContractID ∧
          jes = capitalProvisionJEs p ++ incomeToSuspenseJEs cF.InterestArrears ++
            interestJEs IntrType.Suspense rental ∧ st = 3) ∨
    (cF.RecoveryStatus = 2 ∧ cF.Doubtful = 0 ∧ (nAge cF rental).lt 6 = true ∧
        w'.store = w.store ∧ jes = interestJEs IntrType.Income rental ∧
        st = cF.RecoveryStatus) ∨
    (cF.RecoveryStatus = 3 ∧ (nAge cF rental).ge 12 = true ∧
        ∃ r, queries.CapitalReceivable w.store rental.ContractID = some r ∧
          w'.store = queries.UpdateRecoveryStatus
            (queries.UpdateCapitalProvisioned w.store
              (mathRound ((r - cF.CapitalProvisioned) * 100) / 100) rental.ContractID)
            4 rental.ContractID ∧
          jes = capitalProvisionJEs (mathRound ((r - cF.CapitalProvisioned) * 100) / 100) ++
            interestJEs IntrType.Suspense rental ∧ st = 4) ∨
    (cF.RecoveryStatus = 3 ∧ (nAge cF rental).lt 12 = true ∧
        w'.store = w.store ∧ jes = interestJEs IntrType.Suspense rental ∧
        st = cF.RecoveryStatus) ∨
    (cF.RecoveryStatus = 4 ∧
        w'.store = w.store ∧ jes = interestJEs IntrType.Suspense rental ∧
        st = cF.RecoveryStatus) ∨
    ((cF.RecoveryStatus = 1 → (nAge cF rental).le 0 = false ∧ (nAge cF rental).gt 0 = false) ∧
      (cF.RecoveryStatus = 2 → cF.Doubtful = 1 ∨ cF.Doubtful = 0 →
        (nAge cF rental).ge 6 = false ∧ (nAge cF rental).lt 6 = false) ∧
      (cF.RecoveryStatus = 3 →
        (nAge cF rental).ge 12 = false ∧ (nAge cF rental).lt 12 = false) ∧
      cF.RecoveryStatus ≠ 4 ∧
      w'.store = w.store ∧ jes = [] ∧ st = cF.RecoveryStatus) := by
  unfold decisionChain at h
  simp only [] at h
  split_ifs at h with h1 h2 h3 h4 h5 h6 h7 h8 h9 <;>
    simp only [DB.bind_ok_iff, DB.pure_ok_iff, exec_ok_iff, scanRow_ok_iff, Prod.mk.injEq,
      and_assoc, exists_and_left, exists_eq_left, exists_const] at h
  · obtain ⟨rfl, rfl, rfl⟩ := h
    exact Or.inl ⟨h1.1, h1.2, rfl, rfl, rfl⟩
  · obtain ⟨-, rfl, rfl, rfl⟩ := h
    exact Or.inr (Or.inl ⟨h2.1, h2.2, rfl, rfl, rfl⟩)
  · obtain ⟨-, p, hp, -, -, rfl, rfl, rfl⟩ := h
    exact Or.inr (Or.inr (Or.inl ⟨h3.1, h3.2.1, h3.2.2, p, hp, rfl, rfl, rfl⟩))
  · obtain ⟨rfl, rfl, rfl⟩ := h
    exact Or.inr (Or.inr (Or.inr (Or.inl ⟨h4.1, h4.2.1, h4.2.2, rfl, rfl, rfl⟩)))
  · obtain ⟨-, p, hp, -, -, rfl, rfl, rfl⟩ := h
    exact Or.inr (Or.inr (Or.inr (Or.inr (Or.inl
      ⟨h5.1, h5.2.1, h5.2.2, p, hp, rfl, rfl, rfl⟩))))
  · obtain ⟨rfl, rfl, rfl⟩ := h
    exact Or.inr (Or.inr (Or.inr (Or.inr (Or.inr (Or.inl
      ⟨h6.1, h6.2.1, h6.2.2, rfl, rfl, rfl⟩)))))
  · obtain ⟨-, r, hr, -, -, rfl, rfl, rfl⟩ := h
    exact Or.inr (Or.inr (Or.inr (Or.inr (Or.inr (Or.inr (Or.inl
      ⟨h7.1, h7.2, r, hr, rfl, rfl, rfl⟩))))))
  · obtain ⟨rfl, rfl, rfl⟩ := h
    exact Or.inr (Or.inr (Or.inr (Or.inr (Or.inr (Or.inr (Or.inr (Or.inl
      ⟨h8.1, h8.2, rfl, rfl, rfl⟩)))))))
  · obtain ⟨rfl, rfl, rfl⟩ := h
    exact Or.inr (Or.inr (Or.inr (Or.inr (Or.inr (Or.inr (Or.inr (Or.inr (Or.inl
      ⟨h9, rfl, rfl, rfl⟩))))))))
  · obtain ⟨rfl, rfl, rfl⟩ := h
    refine Or.inr (Or.inr (Or.inr (Or.inr (Or.inr (Or.inr (Or.inr (Or.inr (Or.inr
      ⟨?_, ?_, ?_, h9, rfl, rfl, rfl⟩))))))))
    · intro hs
      simp only [RecoveryStatusActive, hs, true_and, Bool.not_eq_true] at h1 h2
      exact ⟨h1, h2⟩
    · intro hs hd
      simp only [RecoveryStatusArrears, hs, true_and, Bool.not_eq_true] at h3 h4 h5 h6
      rcases hd with hd | hd
      · simp only [hd, true_and, Bool.not_eq_true] at h3 h4
        exact ⟨h3, h4⟩
      · simp only [hd, true_and, Bool.not_eq_true] at h5 h6
        exact ⟨h5, h6⟩
    · intro hs
      simp only [RecoveryStatusNPL, hs, true_and, Bool.not_eq_true] at h7 h8
      exact ⟨h7, h8⟩

/-! ## One rental: the store a successful step leaves -/

theorem issueJournalEntries_ok (F : Nat → Bool) (tid : Int) (jes : List JournalEntry) :
    ∀ (w w' : World) (u : Unit), issueJournalEntries F tid jes w = (w', Except.ok u) →
      w'.store = addLedger w.store (ledgerRows tid jes) := by
  induction jes with
  | nil =>
    intro w w' u h
    simp only [issueJournalEntries, DB.pure_ok_iff] at h
    simp [h.1, ledgerRows, addLedger]
  | cons entry rest ih =>
    intro w w' u h
    rcases entry with ⟨acc, d, c⟩
    cases d <;> cases c <;>
      simp only [issueJournalEntries, DB.bind_ok_iff, DB.pure_ok_iff, exec_ok_iff] at h
    · obtain ⟨_, w1, ⟨rfl, -⟩, _, w2, ⟨rfl, -⟩, h3⟩ := h
      simp [ih _ _ _ h3, ledgerRows]
    · obtain ⟨_, w1, ⟨rfl, -⟩, _, w2, ⟨-, rfl⟩, h3⟩ := h
      simp [ih _ _ _ h3, ledgerRows, addLedger, queries.InsertAccountTransaction]
    · obtain ⟨_, w1, ⟨-, rfl⟩, _, w2, ⟨rfl, -⟩, h3⟩ := h
      simp [ih _ _ _ h3, ledgerRows, addLedger, queries.InsertAccountTransaction]
    · obtain ⟨_, w1, ⟨-, rfl⟩, _, w2, ⟨-, rfl⟩, h3⟩ := h
      simp [ih _ _ _ h3, ledgerRows, addLedger, queries.InsertAccountTransaction]

/-- A successful pass through the loop body: the snapshot was read, the decision
chain succeeded on the store left by the header insert, and the final store is
that of the chain with the ledger rows added, the arrears updated and the
installment flagged. -/
theorem processRental_ok {F : Nat → Bool} {rental : ContractScheduleDueRental}
    {w w' : World} {u : UpdatedContract}
    (h : processRental F rental w = (w', Except.ok u)) :
    ∃ cF wc wd jes st,
      queries.ContractFinancial w.store rental.ContractID = some cF ∧
      wc.store = (queries.InsertTransaction
        (if cF.ScheduleEndDate = rental.MonthlyDate then
          queries.UpdateActive w.store rental.ContractID else w.store) rental).2 ∧
      decisionChain F rental cF wc = (wd, Except.ok (jes, st)) ∧
      w'.store = queries.UpdateDailyEntryIssued
        (queries.UpdateArrears
          (addLedger wd.store (ledgerRows ((w.store.transaction.length : Int) + 1) jes))
          rental.Capital rental.Interest rental.ContractID) rental.ID ∧
      u = ⟨rental.ContractID, cF.RecoveryStatus, st⟩ := by
  simp only [processRental, DB.bind_ok_iff] at h
  obtain ⟨cF, wa, ha, _, wb, hb, tid, wc, hc, ⟨jes, st⟩, wd, hd, _, we, he, _, wf, hf,
    _, wg, hg, hu⟩ := h
  simp only [scanRow_ok_iff] at ha
  simp only [access_ok_iff, Except.ok.injEq, Prod.mk.injEq] at hc
  obtain ⟨-, s, hs, rfl⟩ := hc
  have e5 := issueJournalEntries_ok F tid jes _ _ _ he
  simp only [exec_ok_iff] at hf hg
  simp only [DB.pure_ok_iff] at hu
  obtain ⟨rfl, rfl⟩ := hu
  have hbs : wb.store = (if cF.ScheduleEndDate = rental.MonthlyDate then
      queries.UpdateActive w.store rental.ContractID else w.store) := by
    split_ifs at hb ⊢ with hE
    · simp only [exec_ok_iff] at hb
      rw [hb.2, ha.2.2]
    · simp only [DB.pure_ok_iff] at hb
      rw [hb.1, ha.2.2]
  have hs1 : tid = (queries.InsertTransaction wb.store rental).1 := (congrArg Prod.fst hs).symm
  have hs2 : s = (queries.InsertTransaction wb.store rental).2 := (congrArg Prod.snd hs).symm
  have htid : tid = (w.store.transaction.length : Int) + 1 := by
    rw [hs1, hbs]
    split_ifs <;> simp [queries.InsertTransaction, queries.UpdateActive, queries.updateFinancial]
  refine ⟨cF, _, wd, jes, st, ha.2.1, ?_, hd, ?_, rfl⟩
  · show s = _
    rw [hs2, hbs]
  · rw [hg.2, hf.2, e5, htid]

/-! ## Reading the snapshot after an update -/

theorem find_map_update (l : List FinancialRow) (c c' : Int)
    (f : FinancialRow → FinancialRow) (hf : ∀ r, (f r).contract_id = r.contract_id) :
    (l.map (fun r => if r.contract_id = c then f r else r)).find?
        (fun r => decide (r.contract_id = c')) =
      (l.find? (fun r => decide (r.contract_id = c'))).map
        (fun r => if r.contract_id = c then f r else r) := by
  induction l with
  | nil => rfl
  | cons a l ih =>
    simp only [List.map_cons, List.find?_cons]
    have hid : (if a.contract_id = c then f a else a).contract_id = a.contract_id := by
      split_ifs
      · exact hf a
      · rfl
    rw [hid]
    by_cases hc : a.contract_id = c'
    · simp [hc]
    · simp [hc, ih]

theorem find_contract_id (l : List FinancialRow) (c : Int) (r : FinancialRow)
    (h : l.find? (fun r => decide (r.contract_id = c)) = some r) : r.contract_id = c := by
  have := List.find?_some h
  simpa using this

theorem ContractFinancial_updateFinancial (s : Store) (c c' : Int)
    (f : FinancialRow → FinancialRow) (g : ContractFinancial → ContractFinancial)
    (hf : ∀ r, (f r).contract_id = r.contract_id)
    (hg : ∀ r, queries.toContractFinancial (f r) = g (queries.toContractFinancial r)) :
    queries.ContractFinancial (queries.updateFinancial s c f) c' =
      (queries.ContractFinancial s c').map (fun cF => if c' = c then g cF else cF) := by
  unfold queries.ContractFinancial queries.updateFinancial
  simp only [find_map_update _ _ _ _ hf]
  generalize hfind : List.find? _ s.contract_financial = o
  rcases o with _ | r
  · rfl
  · have hr := find_contract_id _ _ _ hfind
    simp only [Option.map_some', hr]
    split_ifs
    · rw [hg]
    · rfl

theorem ContractFinancial_UpdateRecoveryStatus (s : Store) (st c c' : Int) :
    queries.ContractFinancial (queries.UpdateRecoveryStatus s st c) c' =
      (queries.ContractFinancial s c').map
        (fun cF => if c' = c then { cF with RecoveryStatus := st } else cF) :=
  ContractFinancial_updateFinancial s c c' _ _ (fun _ => rfl) (fun _ => rfl)

theorem ContractFinancial_UpdateRecoveryDoubtfulStatus (s : Store) (st d c c' : Int) :
    queries.ContractFinancial (queries.UpdateRecoveryDoubtfulStatus s st d c) c' =
      (queries.ContractFinancial s c').map
        (fun cF => if c' = c then { cF with RecoveryStatus := st, Doubtful := d } else cF) :=
  ContractFinancial_updateFinancial s c c' _ _ (fun _ => rfl) (fun _ => rfl)

theorem ContractFinancial_UpdateCapitalProvisioned (s : Store) (a : ℚ) (c c' : Int) :
    queries.ContractFinancial (queries.UpdateCapitalProvisioned s a c) c' =
      (queries.ContractFinancial s c').map
        (fun cF => if c' = c then
          { cF with CapitalProvisioned := cF.CapitalProvisioned + a } else cF) :=
  ContractFinancial_updateFinancial s c c' _ _ (fun _ => rfl) (fun _ => rfl)

theorem ContractFinancial_UpdateArrears (s : Store) (a b : ℚ) (c c' : Int) :
    queries.ContractFinancial (queries.UpdateArrears s a b c) c' =
      (queries.ContractFinancial s c').map
        (fun cF => if c' = c then
          { cF with CapitalArrears := cF.CapitalArrears + a,
                    InterestArrears := cF.InterestArrears + b } else cF) :=
  ContractFinancial_updateFinancial s c c' _ _ (fun _ => rfl) (fun _ => rfl)

theorem ContractFinancial_UpdateActive (s : Store) (c c' : Int) :
    queries.ContractFinancial (queries.UpdateActive s c) c' =
      (queries.ContractFinancial s c').map
        (fun cF => if c' = c then { cF with Active := 0 } else cF) :=
  ContractFinancial_updateFinancial s c c' _ _ (fun _ => rfl) (fun _ => rfl)

theorem ContractFinancial_congr (s s' : Store) (c : Int)
    (h : s'.contract_financial = s.contract_financial) :
    queries.ContractFinancial s' c = queries.ContractFinancial s c := by
  unfold queries.ContractFinancial
  rw [h]

theorem NplCapitalProvision_congr (s s' : Store) (c : Int)
    (h : s'.contract_schedule = s.contract_schedule) :
    queries.NplCapitalProvision s' c = queries.NplCapitalProvision s c := by
  unfold queries.NplCapitalProvision queries.outstandingCapital queries.rentalRows
  rw [h]

theorem CapitalReceivable_congr (s s' : Store) (c : Int)
    (h : s'.contract_schedule = s.contract_schedule) :
    queries.CapitalReceivable s' c = queries.CapitalReceivable s c := by
  unfold queries.CapitalReceivable queries.outstandingCapital queries.rentalRows
  rw [h]

theorem headerStore_schedule (s : Store) (b : Prop) [Decidable b] (c : Int)
    (rental : ContractScheduleDueRental) :
    (queries.InsertTransaction (if b then queries.UpdateActive s c else s)
      rental).2.contract_schedule = s.contract_schedule := by
  split_ifs <;> rfl

theorem headerStore_ledger (s : Store) (b : Prop) [Decidable b] (c : Int)
    (rental : ContractScheduleDueRental) :
    (queries.InsertTransaction (if b then queries.UpdateActive s c else s)
      rental).2.account_transaction = s.account_transaction := by
  split_ifs <;> rfl

theorem headerStore_snapshot (s : Store) (b : Prop) [Decidable b] (c c' : Int)
    (rental : ContractScheduleDueRental) :
    queries.ContractFinancial
        (queries.InsertTransaction (if b then queries.UpdateActive s c else s) rental).2 c' =
      (queries.ContractFinancial s c').map
        (fun cF => if c' = c then { cF with Active := if b then 0 else cF.Active } else cF) := by
  rw [ContractFinancial_congr (if b then queries.UpdateActive s c else s)
    (queries.InsertTransaction (if b then queries.UpdateActive s c else s) rental).2 c' rfl]
  by_cases hb : b
  · simp only [hb, if_true]
    rw [ContractFinancial_UpdateActive]
  · simp only [hb, if_false]
    cases queries.ContractFinancial s c' <;> simp

theorem finalStore_snapshot (s : Store) (rows : List AccountTransactionRow) (a b : ℚ)
    (c c' id : Int) :
    queries.ContractFinancial
        (queries.UpdateDailyEntryIssued (queries.UpdateArrears (addLedger s rows) a b c) id) c' =
      (queries.ContractFinancial s c').map
        (fun cF => if c' = c then
          { cF with CapitalArrears := cF.CapitalArrears + a,
                    InterestArrears := cF.InterestArrears + b } else cF) := by
  rw [ContractFinancial_congr (queries.UpdateArrears (addLedger s rows) a b c)
      (queries.UpdateDailyEntryIssued (queries.UpdateArrears (addLedger s rows) a b c) id) c' rfl,
    ContractFinancial_UpdateArrears, ContractFinancial_congr s (addLedger s rows) c' rfl]

/-- What a successful pass through the loop body does, in terms of the store it
started from: the snapshot `cF` read, the row of the decision table taken (with the
entries `jes`, the reported status `st`, the amount `prov` added to the provisioned
capital and the doubtful flag `dbt` left), and the tables afterwards. -/
theorem processRental_summary {F : Nat → Bool} {rental : ContractScheduleDueRental}
    {w w' : World} {u : UpdatedContract}
    (h : processRental F rental w = (w', Except.ok u)) :
    ∃ cF jes st prov dbt,
      queries.ContractFinancial w.store rental.ContractID = some cF ∧
      u = ⟨rental.ContractID, cF.RecoveryStatus, st⟩ ∧
      ((cF.RecoveryStatus = 1 ∧ (nAge cF rental).le 0 = true ∧
          jes = interestJEs IntrType.Income rental ∧ st = 1 ∧ prov = 0 ∧
          dbt = cF.Doubtful) ∨
        (cF.RecoveryStatus = 1 ∧ (nAge cF rental).gt 0 = true ∧
          jes = interestJEs IntrType.Income rental ∧ st = 2 ∧ prov = 0 ∧
          dbt = cF.Doubtful) ∨
        (cF.RecoveryStatus = 2 ∧ cF.Doubtful = 1 ∧ (nAge cF rental).ge 6 = true ∧
          queries.NplCapitalProvision w.store rental.ContractID = some prov ∧
          jes = capitalProvisionJEs prov ++ interestJEs IntrType.Suspense rental ∧
          st = 3 ∧ dbt = 1) ∨
        (cF.RecoveryStatus = 2 ∧ cF.Doubtful = 1 ∧ (nAge cF rental).lt 6 = true ∧
          jes = interestJEs IntrType.Suspense rental ∧ st = 2 ∧ prov = 0 ∧ dbt = 1) ∨
        (cF.RecoveryStatus = 2 ∧ cF.Doubtful = 0 ∧ (nAge cF rental).ge 6 = true ∧
          queries.NplCapitalProvision w.store rental.ContractID = some prov ∧
          jes = capitalProvisionJEs prov ++ incomeToSuspenseJEs cF.InterestArrears ++
            interestJEs IntrType.Suspense rental ∧
          st = 3 ∧ dbt = 1) ∨
        (cF.RecoveryStatus = 2 ∧ cF.Doubtful = 0 ∧ (nAge cF rental).lt 6 = true ∧
          jes = interestJEs IntrType.Income rental ∧ st = 2 ∧ prov = 0 ∧ dbt = 0) ∨
        (cF.RecoveryStatus = 3 ∧ (nAge cF rental).ge 12 = true ∧
          (∃ r, queries.CapitalReceivable w.store rental.ContractID = some r ∧
            prov = mathRound ((r - cF.CapitalProvisioned) * 100) / 100) ∧
          jes = capitalProvisionJEs prov ++ interestJEs IntrType.Suspense rental ∧
          st = 4 ∧ dbt = cF.Doubtful) ∨
        (cF.RecoveryStatus = 3 ∧ (nAge cF rental).lt 12 = true ∧
          jes = interestJEs IntrType.Suspense rental ∧ st = 3 ∧ prov = 0 ∧
          dbt = cF.Doubtful) ∨
        (cF.RecoveryStatus = 4 ∧
          jes = interestJEs IntrType.Suspense rental ∧ st = 4 ∧ prov = 0 ∧
          dbt = cF.Doubtful) ∨
        ((cF.RecoveryStatus = 1 →
            (nAge cF rental).le 0 = false ∧ (nAge cF rental).gt 0 = false) ∧
          (cF.RecoveryStatus = 2 → cF.Doubtful = 1 ∨ cF.Doubtful = 0 →
            (nAge cF rental).ge 6 = false ∧ (nAge cF rental).lt 6 = false) ∧
          (cF.RecoveryStatus = 3 →
            (nAge cF rental).ge 12 = false ∧ (nAge cF rental).lt 12 = false) ∧
          cF.RecoveryStatus ≠ 4 ∧
          jes = [] ∧ st = cF.RecoveryStatus ∧ prov = 0 ∧ dbt = cF.Doubtful)) ∧
      (∀ c', queries.ContractFinancial w'.store c' =
        if c' = rental.ContractID then
          some { Active := if cF.ScheduleEndDate = rental.MonthlyDate then 0 else cF.Active,
                 RecoveryStatus := st,
                 Doubtful := dbt,
                 Payment := cF.Payment,
                 CapitalArrears := cF.CapitalArrears + rental.Capital,
                 InterestArrears := cF.InterestArrears + rental.Interest,
                 CapitalProvisioned := cF.CapitalProvisioned + prov,
                 ScheduleEndDate := cF.ScheduleEndDate }
        else queries.ContractFinancial w.store c') ∧
      w'.store.contract_schedule =
        (queries.UpdateDailyEntryIssued w.store rental.ID).contract_schedule ∧
      w'.store.account_transaction = w.store.account_transaction ++
        ledgerRows ((w.store.transaction.length : Int) + 1) jes ∧
      ∃ wc wd, decisionChain F rental cF wc = (wd, Except.ok (jes, st)) := by
  obtain ⟨cF, wc, wd, jes, st, hcF, hwc, hd, hw', hu⟩ := processRental_ok h
  have hsched := headerStore_schedule w.store (cF.ScheduleEndDate = rental.MonthlyDate)
    rental.ContractID rental
  have hledg := headerStore_ledger w.store (cF.ScheduleEndDate = rental.MonthlyDate)
    rental.ContractID rental
  have hsnapc := fun c' => headerStore_snapshot w.store
    (cF.ScheduleEndDate = rental.MonthlyDate) rental.ContractID c' rental
  rw [← hwc] at hsched hledg hsnapc
  have hnpl := NplCapitalProvision_congr _ _ rental.ContractID hsched
  have hrec := CapitalReceivable_congr _ _ rental.ContractID hsched
  have hfin := fun c' => finalStore_snapshot wd.store
    (ledgerRows ((w.store.transaction.length : Int) + 1) jes) rental.Capital rental.Interest
    rental.ContractID c' rental.ID
  rw [← hw'] at hfin
  have hsch' : w'.store.contract_schedule =
      (queries.UpdateDailyEntryIssued wd.store rental.ID).contract_schedule := by
    rw [hw']; rfl
  have hled' : w'.store.account_transaction = wd.store.account_transaction ++
      ledgerRows ((w.store.transaction.length : Int) + 1) jes := by
    rw [hw']; rfl
  -- the tables the chain leaves, row by row
  have key : ∀ (prov : ℚ) (dbt : Int),
      (∀ c', queries.ContractFinancial wd.store c' =
        (queries.ContractFinancial wc.store c').map (fun x =>
          if c' = rental.ContractID then
            { x with RecoveryStatus := st, Doubtful := dbt,
                     CapitalProvisioned := x.CapitalProvisioned + prov } else x)) →
      wd.store.contract_schedule = wc.store.contract_schedule →
      wd.store.account_transaction = wc.store.account_transaction →
      (∀ c', queries.ContractFinancial w'.store c' =
        if c' = rental.ContractID then
          some { Active := if cF.ScheduleEndDate = rental.MonthlyDate then 0 else cF.Active,
                 RecoveryStatus := st,
                 Doubtful := dbt,
                 Payment := cF.Payment,
                 CapitalArrears := cF.CapitalArrears + rental.Capital,
                 InterestArrears := cF.InterestArrears + rental.Interest,
                 CapitalProvisioned := cF.CapitalProvisioned + prov,
                 ScheduleEndDate := cF.ScheduleEndDate }
        else queries.ContractFinancial w.store c') ∧
      w'.store.contract_schedule =
        (queries.UpdateDailyEntryIssued w.store rental.ID).contract_schedule ∧
      w'.store.account_transaction = w.store.account_transaction ++
        ledgerRows ((w.store.transaction.length : Int) + 1) jes ∧
      ∃ wc wd, decisionChain F rental cF wc = (wd, Except.ok (jes, st)) := by
    intro prov dbt hsn hsc hle
    refine ⟨?_, ?_, ?_, wc, wd, hd⟩
    · intro c'
      rw [hfin, hsn, hsnapc]
      by_cases hc : c' = rental.ContractID
      · subst hc
        simp [hcF]
      · simp only [hc, if_false]
        cases queries.ContractFinancial w.store c' <;> simp
    · rw [hsch']
      simp only [queries.UpdateDailyEntryIssued]
      rw [hsc, hsched]
    · rw [hled', hle, hledg]
  rcases decisionChain_ok hd with
    ⟨h1, h2, hs, rfl, rfl⟩ | ⟨h1, h2, hs, rfl, rfl⟩ | ⟨h1, h2, h3, p, hp, hs, rfl, rfl⟩ |
    ⟨h1, h2, h3, hs, rfl, rfl⟩ | ⟨h1, h2, h3, p, hp, hs, rfl, rfl⟩ |
    ⟨h1, h2, h3, hs, rfl, rfl⟩ | ⟨h1, h2, r, hr, hs, rfl, rfl⟩ | ⟨h1, h2, hs, rfl, rfl⟩ |
    ⟨h1, hs, rfl, rfl⟩ | ⟨h1, h2, h3, h4, hs, rfl, rfl⟩
  · refine ⟨cF, _, _, 0, cF.Doubtful, hcF, hu, Or.inl ⟨h1, h2, rfl, h1, rfl, rfl⟩,
      key 0 cF.Doubtful ?_ (hs ▸ rfl) (hs ▸ rfl)⟩
    intro c'
    rw [hs, hsnapc]
    by_cases hc : c' = rental.ContractID
    · subst hc; simp [hcF]
    · cases queries.ContractFinancial w.store c' <;> simp [hc]
  · refine ⟨cF, _, _, 0, cF.Doubtful, hcF, hu, Or.inr (Or.inl ⟨h1, h2, rfl, rfl, rfl, rfl⟩),
      key (0) (cF.Doubtful) ?_ (hs ▸ rfl) (hs ▸ rfl)⟩
    intro c'
    rw [hs, ContractFinancial_UpdateRecoveryStatus, hsnapc]
    by_cases hc : c' = rental.ContractID
    · subst hc; simp [hcF]
    · cases queries.ContractFinancial w.store c' <;> simp [hc]
  · refine ⟨cF, _, _, p, 1, hcF, hu, Or.inr (Or.inr (Or.inl ⟨h1, h2, h3, hnpl ▸ hp, rfl, rfl, rfl⟩)),
      key (p) (1) ?_ (hs ▸ rfl) (hs ▸ rfl)⟩
    intro c'
    rw [hs, ContractFinancial_UpdateCapitalProvisioned, ContractFinancial_UpdateRecoveryStatus, hsnapc]
    by_cases hc : c' = rental.ContractID
    · subst hc; simp [hcF, h2]
    · cases queries.ContractFinancial w.store c' <;> simp [hc]
  · refine ⟨cF, _, _, 0, 1, hcF, hu, Or.inr (Or.inr (Or.inr (Or.inl ⟨h1, h2, h3, rfl, h1, rfl, rfl⟩))),
      key (0) (1) ?_ (hs ▸ rfl) (hs ▸ rfl)⟩
    intro c'
    rw [hs, hsnapc]
    by_cases hc : c' = rental.ContractID
    · subst hc; simp [hcF, h2]
    · cases queries.ContractFinancial w.store c' <;> simp [hc]
  · refine ⟨cF, _, _, p, 1, hcF, hu, Or.inr (Or.inr (Or.inr (Or.inr (Or.inl ⟨h1, h2, h3, hnpl ▸ hp, rfl, rfl, rfl⟩)))),
      key (p) (1) ?_ (hs ▸ rfl) (hs ▸ rfl)⟩
    intro c'
    rw [hs, ContractFinancial_UpdateCapitalProvisioned, ContractFinancial_UpdateRecoveryDoubtfulStatus, hsnapc]
    by_cases hc : c' = rental.ContractID
    · subst hc; simp [hcF]
    · cases queries.ContractFinancial w.store c' <;> simp [hc]
  · refine ⟨cF, _, _, 0, 0, hcF, hu, Or.inr (Or.inr (Or.inr (Or.inr (Or.inr (Or.inl ⟨h1, h2, h3, rfl, h1, rfl, rfl⟩))))),
      key (0) (0) ?_ (hs ▸ rfl) (hs ▸ rfl)⟩
    intro c'
    rw [hs, hsnapc]
    by_cases hc : c' = rental.ContractID
    · subst hc; simp [hcF, h2]
    · cases queries.ContractFinancial w.store c' <;> simp [hc]
  · refine ⟨cF, _, _, mathRound ((r - cF.CapitalProvisioned) * 100) / 100, cF.Doubtful, hcF, hu, Or.inr (Or.inr (Or.inr (Or.inr (Or.inr (Or.inr (Or.inl ⟨h1, h2, ⟨r, hrec ▸ hr, rfl⟩, rfl, rfl, rfl⟩)))))),
      key (mathRound ((r - cF.CapitalProvisioned) * 100) / 100) (cF.Doubtful) ?_ (hs ▸ rfl) (hs ▸ rfl)⟩
    intro c'
    rw [hs, ContractFinancial_UpdateRecoveryStatus, ContractFinancial_UpdateCapitalProvisioned, hsnapc]
    by_cases hc : c' = rental.ContractID
    · subst hc; simp [hcF]
    · cases queries.ContractFinancial w.store c' <;> simp [hc]
  · refine ⟨cF, _, _, 0, cF.Doubtful, hcF, hu, Or.inr (Or.inr (Or.inr (Or.inr (Or.inr (Or.inr (Or.inr (Or.inl ⟨h1, h2, rfl, h1, rfl, rfl⟩))))))),
      key (0) (cF.Doubtful) ?_ (hs ▸ rfl) (hs ▸ rfl)⟩
    intro c'
    rw [hs, hsnapc]
    by_cases hc : c' = rental.ContractID
    · subst hc; simp [hcF]
    · cases queries.ContractFinancial w.store c' <;> simp [hc]
  · refine ⟨cF, _, _, 0, cF.Doubtful, hcF, hu, Or.inr (Or.inr (Or.inr (Or.inr (Or.inr (Or.inr (Or.inr (Or.inr (Or.inl ⟨h1, rfl, h1, rfl, rfl⟩)))))))),
      key (0) (cF.Doubtful) ?_ (hs ▸ rfl) (hs ▸ rfl)⟩
    intro c'
    rw [hs, hsnapc]
    by_cases hc : c' = rental.ContractID
    · subst hc; simp [hcF]
    · cases queries.ContractFinancial w.store c' <;> simp [hc]
  · refine ⟨cF, _, _, 0, cF.Doubtful, hcF, hu, Or.inr (Or.inr (Or.inr (Or.inr (Or.inr (Or.inr (Or.inr (Or.inr (Or.inr ⟨h1, h2, h3, h4, rfl, rfl, rfl, rfl⟩)))))))),
      key (0) (cF.Doubtful) ?_ (hs ▸ rfl) (hs ▸ rfl)⟩
    intro c'
    rw [hs, hsnapc]
    by_cases hc : c' = rental.ContractID
    · subst hc; simp [hcF]
    · cases queries.ContractFinancial w.store c' <;> simp [hc]

/-! ## The log of a computation -/

theorem LogOK_pure {α : Type} (a : α) : LogOK (pure a : DB α) := by
  intro w
  exact ⟨[], by simp, by simp⟩

theorem LogOK_access {α : Type} (F : Nat → Bool) (op : Op)
    (act : Store → Except Err (α × Store)) : LogOK (access F op act) := by
  intro w
  unfold access
  by_cases hF : F w.log.length = true
  · simp only [hF, if_true]
    exact ⟨[], op, by simp, by simp⟩
  · simp only [hF, Bool.false_eq_true, if_false]
    rcases act w.store with e | ⟨a, s⟩
    · exact ⟨[], op, by simp, by simp⟩
    · exact ⟨[(op, none)], rfl, by simp⟩

theorem LogOK_bind {α β : Type} (m : DB α) (f : α → DB β) (hm : LogOK m)
    (hf : ∀ a, LogOK (f a)) : LogOK (m >>= f) := by
  intro w
  have h1 := hm w
  rw [DB.bind_apply]
  rcases hmw : m w with ⟨w1, e | a⟩
  · rw [hmw] at h1
    exact h1
  · rw [hmw] at h1
    obtain ⟨ops, hlog, hops⟩ := h1
    have h2 := hf a w1
    simp only []
    rcases hfw : f a w1 with ⟨w2, e | b⟩
    · rw [hfw] at h2
      obtain ⟨pre, op, hlog2, hpre⟩ := h2
      refine ⟨ops ++ pre, op, ?_, ?_⟩
      · simp only [hlog2, hlog, List.append_assoc]
      · intro o ho
        rcases List.mem_append.1 ho with h | h
        · exact hops o h
        · exact hpre o h
    · rw [hfw] at h2
      obtain ⟨ops2, hlog2, hops2⟩ := h2
      refine ⟨ops ++ ops2, ?_, ?_⟩
      · simp only [hlog2, hlog, List.append_assoc]
      · intro o ho
        rcases List.mem_append.1 ho with h | h
        · exact hops o h
        · exact hops2 o h

theorem LogOK_ite {α : Type} (c : Prop) [Decidable c] (m1 m2 : DB α) (h1 : LogOK m1)
    (h2 : LogOK m2) : LogOK (if c then m1 else m2) := by
  split_ifs
  · exact h1
  · exact h2

theorem LogOK_exec (F : Nat → Bool) (op : Op) (f : Store → Store) : LogOK (exec F op f) :=
  LogOK_access F op _

theorem LogOK_scanRow {α : Type} (F : Nat → Bool) (op : Op) (q : Store → Option α) :
    LogOK (scanRow F op q) :=
  LogOK_access F op _

theorem LogOK_issueJournalEntries (F : Nat → Bool) (tid : Int) (jes : List JournalEntry) :
    LogOK (issueJournalEntries F tid jes) := by
  induction jes with
  | nil => exact LogOK_pure ()
  | cons entry rest ih =>
    rcases entry with ⟨acc, d, c⟩
    unfold issueJournalEntries
    refine LogOK_bind _ _ ?_ (fun _ => LogOK_bind _ _ ?_ (fun _ => ih))
    · cases d
      · exact LogOK_pure ()
      · exact LogOK_exec F _ _
    · cases c
      · exact LogOK_pure ()
      · exact LogOK_exec F _ _

theorem LogOK_decisionChain (F : Nat → Bool) (rental : ContractScheduleDueRental)
    (cF : ContractFinancial) : LogOK (decisionChain F rental cF) := by
  unfold decisionChain
  simp only []
  repeat' first
    | exact LogOK_pure _
    | exact LogOK_exec F _ _
    | exact LogOK_scanRow F _ _
    | refine LogOK_ite _ _ _ ?_ ?_
    | refine LogOK_bind _ _ ?_ (fun _ => ?_)

theorem LogOK_processRental (F : Nat → Bool) (rental : ContractScheduleDueRental) :
    LogOK (processRental F rental) := by
  unfold processRental
  refine LogOK_bind _ _ (LogOK_scanRow F _ _) (fun cF => ?_)
  refine LogOK_bind _ _ (LogOK_ite _ _ _ (LogOK_exec F _ _) (LogOK_pure _)) (fun _ => ?_)
  refine LogOK_bind _ _ (LogOK_access F _ _) (fun tid => ?_)
  refine LogOK_bind _ _ (LogOK_decisionChain F rental cF) (fun p => ?_)
  refine LogOK_bind _ _ (LogOK_issueJournalEntries F tid _) (fun _ => ?_)
  refine LogOK_bind _ _ (LogOK_exec F _ _) (fun _ => ?_)
  refine LogOK_bind _ _ (LogOK_exec F _ _) (fun _ => ?_)
  exact LogOK_pure _

theorem LogOK_runLoop (F : Nat → Bool) (rs : List ContractScheduleDueRental) :
    ∀ acc, LogOK (runLoop F rs acc) := by
  induction rs with
  | nil => intro acc; exact LogOK_pure acc
  | cons r rs ih =>
    intro acc
    unfold runLoop
    exact LogOK_bind _ _ (LogOK_processRental F r) (fun u => ih _)

theorem LogOK_loadDueRentals (F : Nat → Bool) (date : Nat) (contract : Int) (manual : Bool) :
    LogOK (loadDueRentals F date contract manual) := by
  unfold loadDueRentals
  split_ifs
  · exact LogOK_access F _ _
  · exact LogOK_access F _ _

/-! ## The loop over the due rentals -/

theorem runLoop_acc (F : Nat → Bool) (rs : List ContractScheduleDueRental) :
    ∀ (acc : List UpdatedContract) (w : World),
      runLoop F rs acc w =
        match runLoop F rs [] w with
        | (w', Except.ok new) => (w', Except.ok (acc ++ new))
        | (w', Except.error e) => (w', Except.error e) := by
  induction rs with
  | nil => intro acc w; simp [runLoop, DB.pure_apply]
  | cons r rs ih =>
    intro acc w
    simp only [runLoop, DB.bind_apply]
    rcases processRental F r w with ⟨w1, e | u⟩
    · rfl
    · simp only []
      rw [ih (acc ++ [u]) w1, ih ([] ++ [u]) w1]
      rcases runLoop F rs [] w1 with ⟨w2, e | new⟩
      · rfl
      · simp

theorem runLoop_cons_ok {F : Nat → Bool} {r : ContractScheduleDueRental}
    {rs : List ContractScheduleDueRental} {w w' : World} {us : List UpdatedContract}
    (h : runLoop F (r :: rs) [] w = (w', Except.ok us)) :
    ∃ u w1 new, processRental F r w = (w1, Except.ok u) ∧
      runLoop F rs [] w1 = (w', Except.ok new) ∧ us = u :: new := by
  simp only [runLoop, DB.bind_ok_iff] at h
  obtain ⟨u, w1, h1, h2⟩ := h
  rw [runLoop_acc] at h2
  rcases h3 : runLoop F rs [] w1 with ⟨w2, e | new⟩
  · rw [h3] at h2; cases h2
  · rw [h3] at h2
    simp only [Prod.mk.injEq, Except.ok.injEq] at h2
    obtain ⟨rfl, rfl⟩ := h2
    exact ⟨u, w1, new, h1, h3, by simp⟩

theorem runLoop_length (F : Nat → Bool) (rs : List ContractScheduleDueRental) :
    ∀ (w w' : World) (us : List UpdatedContract),
      runLoop F rs [] w = (w', Except.ok us) → us.length = rs.length := by
  induction rs with
  | nil =>
    intro w w' us h
    simp only [runLoop, DB.pure_ok_iff] at h
    simp [h.2]
  | cons r rs ih =>
    intro w w' us h
    obtain ⟨u, w1, new, -, h2, rfl⟩ := runLoop_cons_ok h
    simp [ih _ _ _ h2]

theorem runLoop_append_ok (F : Nat → Bool) (pre post : List ContractScheduleDueRental) :
    ∀ (w w' : World) (us : List UpdatedContract),
      runLoop F (pre ++ post) [] w = (w', Except.ok us) →
      ∃ wk usk new, runLoop F pre [] w = (wk, Except.ok usk) ∧
        runLoop F post [] wk = (w', Except.ok new) ∧ us = usk ++ new := by
  induction pre with
  | nil =>
    intro w w' us h
    exact ⟨w, [], us, rfl, h, rfl⟩
  | cons r pre ih =>
    intro w w' us h
    obtain ⟨u, w1, new, h1, h2, rfl⟩ := runLoop_cons_ok h
    obtain ⟨wk, usk, new2, h3, h4, rfl⟩ := ih _ _ _ h2
    refine ⟨wk, u :: usk, new2, ?_, h4, rfl⟩
    simp only [runLoop, DB.bind_apply, h1]
    rw [runLoop_acc, h3]
    rfl

/-- The k-th rental of a successful loop is processed in the world the loop leaves
after the first k rentals, and produces the k-th record. -/
theorem runLoop_nth (F : Nat → Bool) (rs : List ContractScheduleDueRental)
    (w w' : World) (us : List UpdatedContract)
    (h : runLoop F rs [] w = (w', Except.ok us))
    (pre post : List ContractScheduleDueRental) (r : ContractScheduleDueRental)
    (hrs : rs = pre ++ r :: post) :
    ∃ wk usk wk1 u, runLoop F pre [] w = (wk, Except.ok usk) ∧
      processRental F r wk = (wk1, Except.ok u) ∧
      usk.length = pre.length ∧ us[pre.length]? = some u := by
  subst hrs
  obtain ⟨wk, usk, new, h1, h2, rfl⟩ := runLoop_append_ok F _ _ _ _ _ h
  obtain ⟨u, wk1, new2, h3, -, rfl⟩ := runLoop_cons_ok h2
  have hl := runLoop_length F pre _ _ _ h1
  refine ⟨wk, usk, wk1, u, h1, h3, hl, ?_⟩
  rw [← hl]
  exact List.getElem?_append_right (le_refl _) |>.trans (by simp)

/-! ## Arrears along the loop -/

theorem capitalOf_cons (c : Int) (r : ContractScheduleDueRental)
    (l : List ContractScheduleDueRental) :
    capitalOf c (r :: l) = (if r.ContractID = c then r.Capital else 0) + capitalOf c l := by
  unfold capitalOf
  by_cases h : r.ContractID = c <;> simp [List.filter_cons, h]

theorem interestOf_cons (c : Int) (r : ContractScheduleDueRental)
    (l : List ContractScheduleDueRental) :
    interestOf c (r :: l) = (if r.ContractID = c then r.Interest else 0) + interestOf c l := by
  unfold interestOf
  by_cases h : r.ContractID = c <;> simp [List.filter_cons, h]

theorem capitalOf_append (c : Int) (l1 l2 : List ContractScheduleDueRental) :
    capitalOf c (l1 ++ l2) = capitalOf c l1 + capitalOf c l2 := by
  unfold capitalOf
  simp [List.filter_append]

theorem interestOf_append (c : Int) (l1 l2 : List ContractScheduleDueRental) :
    interestOf c (l1 ++ l2) = interestOf c l1 + interestOf c l2 := by
  unfold interestOf
  simp [List.filter_append]

/-- The snapshot of a contract after a successful loop over `pre`: it existed at
the start, its payment is unchanged, and its arrears have grown by the capital and
the interest of the rentals of the contract in `pre`. -/
theorem runLoop_snapshot (F : Nat → Bool) (pre : List ContractScheduleDueRental) :
    ∀ (w wk : World) (usk : List UpdatedContract),
      runLoop F pre [] w = (wk, Except.ok usk) →
      ∀ (c : Int) (x : ContractFinancial), queries.ContractFinancial wk.store c = some x →
        ∃ x0, queries.ContractFinancial w.store c = some x0 ∧
          x.Payment = x0.Payment ∧
          x.CapitalArrears = x0.CapitalArrears + capitalOf c pre ∧
          x.InterestArrears = x0.InterestArrears + interestOf c pre := by
  induction pre with
  | nil =>
    intro w wk usk h c x hx
    simp only [runLoop, DB.pure_ok_iff] at h
    rw [h.1] at hx
    exact ⟨x, hx, rfl, by simp [capitalOf], by simp [interestOf]⟩
  | cons r pre ih =>
    intro w wk usk h c x hx
    obtain ⟨u, w1, new, h1, h2, -⟩ := runLoop_cons_ok h
    obtain ⟨x1, hx1, hp, hc, hi⟩ := ih _ _ _ h2 c x hx
    obtain ⟨cF, _, _, _, _, hcF, -, -, hsnap, -⟩ := processRental_summary h1
    rw [hsnap] at hx1
    rw [capitalOf_cons, interestOf_cons]
    by_cases hcid : c = r.ContractID
    · rw [if_pos hcid] at hx1
      cases hx1
      subst hcid
      refine ⟨cF, hcF, hp, ?_, ?_⟩
      · rw [hc, if_pos rfl]; ring
      · rw [hi, if_pos rfl]; ring
    · rw [if_neg hcid] at hx1
      refine ⟨x1, hx1, hp, ?_, ?_⟩
      · rw [hc, if_neg (fun h => hcid h.symm)]; ring
      · rw [hi, if_neg (fun h => hcid h.symm)]; ring

theorem issued_of_schedule (s s' : Store) (id : Int)
    (h : s'.contract_schedule = (queries.UpdateDailyEntryIssued s id).contract_schedule) :
    ∀ row ∈ s'.contract_schedule, row.id = id → row.daily_entry_issued = 1 := by
  intro row hrow hid
  rw [h] at hrow
  simp only [queries.UpdateDailyEntryIssued, List.mem_map] at hrow
  obtain ⟨row0, -, rfl⟩ := hrow
  by_cases h0 : row0.id = id
  · simp [h0]
  · simp only [h0, if_false] at hid

/-! ## The issued flags along the loop -/

theorem runLoop_schedule (F : Nat → Bool) (rs : List ContractScheduleDueRental) :
    ∀ (w w' : World) (us : List UpdatedContract),
      runLoop F rs [] w = (w', Except.ok us) →
      w'.store.contract_schedule = w.store.contract_schedule.map (fun row =>
        if row.id ∈ rs.map (fun r => r.ID) then { row with daily_entry_issued := 1 }
        else row) := by
  induction rs with
  | nil =>
    intro w w' us h
    simp only [runLoop, DB.pure_ok_iff] at h
    simp [h.1]
  | cons r rs ih =>
    intro w w' us h
    obtain ⟨u, w1, new, h1, h2, -⟩ := runLoop_cons_ok h
    obtain ⟨_, _, _, _, _, -, -, -, -, hsched, -⟩ := processRental_summary h1
    rw [ih _ _ _ h2, hsched]
    simp only [queries.UpdateDailyEntryIssued, List.map_map]
    apply List.map_congr_left
    intro row _
    simp only [Function.comp, List.map_cons, List.mem_cons]
    by_cases h0 : row.id = r.ID
    · simp [h0]
    · by_cases h3 : row.id ∈ rs.map (fun r => r.ID)
      · simp [h0, h3]
      · simp [h0, h3]

theorem mem_DueRentals (s : Store) (date : Nat) (row : ScheduleRow)
    (hrow : row ∈ s.contract_schedule) (h0 : row.daily_entry_issued = 0)
    (hd : row.monthly_date ≤ date) (ht : row.contract_installment_type_id = 1) :
    row.id ∈ (queries.DueRentals s date).map (fun r => r.ID) := by
  unfold queries.DueRentals
  simp only [List.map_map, List.mem_map]
  refine ⟨row, ?_, rfl⟩
  rw [(List.perm_insertionSort _ _).mem_iff, List.mem_filter]
  exact ⟨hrow, by simp [h0, hd, ht]⟩

theorem mem_DueRentalsByContract (s : Store) (date : Nat) (contract : Int) (row : ScheduleRow)
    (hrow : row ∈ s.contract_schedule) (h0 : row.daily_entry_issued = 0)
    (hd : row.monthly_date ≤ date) (ht : row.contract_installment_type_id = 1)
    (hc : row.contract_id = contract) :
    row.id ∈ (queries.DueRentalsByContract s date contract).map (fun r => r.ID) := by
  unfold queries.DueRentalsByContract
  simp only [List.map_map, List.mem_map]
  refine ⟨row, ?_, rfl⟩
  rw [(List.perm_insertionSort _ _).mem_iff, List.mem_filter]
  exact ⟨hrow, by simp [h0, hd, ht, hc]⟩

theorem DueRentals_flagged (s : Store) (sched : List ScheduleRow) (date : Nat)
    (h : sched = s.contract_schedule.map (fun row =>
      if row.id ∈ (queries.DueRentals s date).map (fun r => r.ID) then
        { row with daily_entry_issued := 1 } else row))
    (t f a : List _) :
    queries.DueRentals ⟨sched, f, t, a⟩ date = [] := by
  unfold queries.DueRentals
  have : List.filter (fun r : ScheduleRow => decide (r.daily_entry_issued = 0 ∧
      r.monthly_date ≤ date ∧ r.contract_installment_type_id = 1)) sched = [] := by
    rw [List.filter_eq_nil_iff]
    intro row' hrow'
    rw [h, List.mem_map] at hrow'
    obtain ⟨row, hrow, rfl⟩ := hrow'
    by_cases hm : row.id ∈ (queries.DueRentals s date).map (fun r => r.ID)
    · simp [hm]
    · simp only [hm, if_false, decide_eq_true_eq]
      rintro ⟨h0, hd, ht⟩
      exact hm (mem_DueRentals s date row hrow h0 hd ht)
  simp only [this]
  rfl

theorem DueRentalsByContract_flagged (s : Store) (sched : List ScheduleRow) (date : Nat)
    (contract : Int)
    (h : sched = s.contract_schedule.map (fun row =>
      if row.id ∈ (queries.DueRentalsByContract s date contract).map (fun r => r.ID) then
        { row with daily_entry_issued := 1 } else row))
    (t f a : List _) :
    queries.DueRentalsByContract ⟨sched, f, t, a⟩ date contract = [] := by
  unfold queries.DueRentalsByContract
  have : List.filter (fun r : ScheduleRow => decide (r.daily_entry_issued = 0 ∧
      r.monthly_date ≤ date ∧ r.contract_installment_type_id = 1 ∧
      r.contract_id = contract)) sched = [] := by
    rw [List.filter_eq_nil_iff]
    intro row' hrow'
    rw [h, List.mem_map] at hrow'
    obtain ⟨row, hrow, rfl⟩ := hrow'
    by_cases hm : row.id ∈ (queries.DueRentalsByContract s date contract).map (fun r => r.ID)
    · simp [hm]
    · simp only [hm, if_false, decide_eq_true_eq]
      rintro ⟨h0, hd, ht, hc⟩
      exact hm (mem_DueRentalsByContract s date contract row hrow h0 hd ht hc)
  simp only [this]
  rfl

/-! ## Properties of the journal entries -/

/-- C1 (sum invariant).  Whatever the snapshot `cF` (any recovery status, doubtful
flag, payment, arrears, provisioned capital), the rental and the store, the list
`dayEndJEs` the decision chain of `Run` builds has total debits equal to total
credits; this covers every branch, those that prepend `capitalProvisionJEs` and
`incomeToSuspenseJEs` and the branchless case of an empty list included. -/
theorem sum_invariant (F : Nat → Bool) (rental : ContractScheduleDueRental)
    (cF : ContractFinancial) (w w' : World) (dayEndJEs : List JournalEntry) (st : Int)
    (h : decisionChain F rental cF w = (w', Except.ok (dayEndJEs, st))) :
    totalDebit dayEndJEs = totalCredit dayEndJEs := by
  rcases decisionChain_ok h with
    ⟨-, -, -, rfl, -⟩ | ⟨-, -, -, rfl, -⟩ | ⟨-, -, -, p, -, -, rfl, -⟩ |
    ⟨-, -, -, -, rfl, -⟩ | ⟨-, -, -, p, -, -, rfl, -⟩ |
    ⟨-, -, -, -, rfl, -⟩ | ⟨-, -, r, -, -, rfl, -⟩ | ⟨-, -, -, rfl, -⟩ |
    ⟨-, -, rfl, -⟩ | ⟨-, -, -, -, -, rfl, -⟩ <;>
  simp [totalDebit, totalCredit, interestJEs, suspenseJEs, capitalProvisionJEs,
    incomeToSuspenseJEs]

/-- Witness of C1: the reclassification branch, whose list has all eight entries. -/
theorem sum_invariant_witness :
    decisionChain noFault exRental (exSnapshot 2 0 100 450 100 0) scenarioR =
      (⟨exStore 3 1 100 450 100 50,
          [(Op.NplCapitalProvision, none), (Op.UpdateRecoveryDoubtfulStatus, none),
            (Op.UpdateCapitalProvisioned, none)]⟩,
        Except.ok (capitalProvisionJEs 50 ++ incomeToSuspenseJEs 100 ++
          interestJEs IntrType.Suspense exRental, 3)) ∧
    totalDebit (capitalProvisionJEs 50 ++ incomeToSuspenseJEs 100 ++
        interestJEs IntrType.Suspense exRental) =
      totalCredit (capitalProvisionJEs 50 ++ incomeToSuspenseJEs 100 ++
        interestJEs IntrType.Suspense exRental) :=
  ⟨by decide!, sum_invariant noFault exRental (exSnapshot 2 0 100 450 100 0) scenarioR
    ⟨exStore 3 1 100 450 100 50,
      [(Op.NplCapitalProvision, none), (Op.UpdateRecoveryDoubtfulStatus, none),
        (Op.UpdateCapitalProvisioned, none)]⟩
    (capitalProvisionJEs 50 ++ incomeToSuspenseJEs 100 ++
      interestJEs IntrType.Suspense exRental) 3 (by decide!)⟩

/-- C3, as amended (entries of the rows that do not provision).  The age is the
`float64` value `nAge` the code computes.  For an installment of capital `c` and
interest `i`: when the decision row routes the interest to Income (status Active
with any age that is not `NaN`, that is age `<= 0` or age `> 0`; status Arrears,
doubtful 0, age `< 6`) `dayEndJEs` is exactly
`[DR 192 c+i, CR 185 c+i, DR 188 i, CR 190 i]`; when it routes to Suspense without
provisioning (Arrears, doubtful 1, age `< 6`; NPL, age `< 12`; BDP, any age) it is
exactly `[DR 192 c+i, CR 185 c+i, DR 188 i, CR 194 i]`. -/
theorem entries_of_rows_without_provision (F : Nat → Bool)
    (rental : ContractScheduleDueRental) (cF : ContractFinancial) (w w' : World)
    (dayEndJEs : List JournalEntry) (st : Int)
    (h : decisionChain F rental cF w = (w', Except.ok (dayEndJEs, st))) :
    ((cF.RecoveryStatus = 1 ∧
          ((nAge cF rental).le 0 = true ∨ (nAge cF rental).gt 0 = true)) ∨
        (cF.RecoveryStatus = 2 ∧ cF.Doubtful = 0 ∧ (nAge cF rental).lt 6 = true) →
      dayEndJEs =
        [⟨192, some (rental.Capital + rental.Interest), none⟩,
         ⟨185, none, some (rental.Capital + rental.Interest)⟩,
         ⟨188, some rental.Interest, none⟩,
         ⟨190, none, some rental.Interest⟩]) ∧
    ((cF.RecoveryStatus = 2 ∧ cF.Doubtful = 1 ∧ (nAge cF rental).lt 6 = true) ∨
        (cF.RecoveryStatus = 3 ∧ (nAge cF rental).lt 12 = true) ∨
        cF.RecoveryStatus = 4 →
      dayEndJEs =
        [⟨192, some (rental.Capital + rental.Interest), none⟩,
         ⟨185, none, some (rental.Capital + rental.Interest)⟩,
         ⟨188, some rental.Interest, none⟩,
         ⟨194, none, some rental.Interest⟩]) := by
  have hle := Age.not_le_and_gt (nAge cF rental) 0
  have h6 := Age.not_ge_and_lt (nAge cF rental) 6
  have h12 := Age.not_ge_and_lt (nAge cF rental) 12
  constructor
  · intro hrow
    rcases decisionChain_ok h with
      ⟨h1, h2, -, rfl, -⟩ | ⟨h1, h2, -, rfl, -⟩ | ⟨h1, h2, h3, p, -, -, rfl, -⟩ |
      ⟨h1, h2, h3, -, rfl, -⟩ | ⟨h1, h2, h3, p, -, -, rfl, -⟩ |
      ⟨h1, h2, h3, -, rfl, -⟩ | ⟨h1, h2, r, -, -, rfl, -⟩ | ⟨h1, h2, -, rfl, -⟩ |
      ⟨h1, -, rfl, -⟩ | ⟨h1, h2, h3, h4, -, rfl, -⟩ <;>
    rcases hrow with ⟨hs, ha | ha⟩ | ⟨hs, hd, ha⟩ <;>
    simp_all [interestJEs, suspenseJEs]
  · intro hrow
    rcases decisionChain_ok h with
      ⟨h1, h2, -, rfl, -⟩ | ⟨h1, h2, -, rfl, -⟩ | ⟨h1, h2, h3, p, -, -, rfl, -⟩ |
      ⟨h1, h2, h3, -, rfl, -⟩ | ⟨h1, h2, h3, p, -, -, rfl, -⟩ |
      ⟨h1, h2, h3, -, rfl, -⟩ | ⟨h1, h2, r, -, -, rfl, -⟩ | ⟨h1, h2, -, rfl, -⟩ |
      ⟨h1, -, rfl, -⟩ | ⟨h1, h2, h3, h4, -, rfl, -⟩ <;>
    rcases hrow with ⟨hs, hd, ha⟩ | ⟨hs, ha⟩ | hs <;>
    simp_all [interestJEs, suspenseJEs]

/-- Witness of C3.  Scenario A (Active, payment 100, no arrears, capital 50,
interest 10): age 0.6, the four Income entries with amounts 60, 60, 10, 10.
Scenario B (Arrears, doubtful, arrears 500, payment 100): age 5.6, the Suspense
list. -/
theorem entries_of_rows_without_provision_witness :
    (nAge (exSnapshot 1 0 100 0 0 0) exRental = rnd64 (6 / 10) ∧
      decisionChain noFault exRental (exSnapshot 1 0 100 0 0 0) scenarioA =
        (⟨exStore 2 0 100 0 0 0, [(Op.UpdateRecoveryStatus, none)]⟩,
          Except.ok (interestJEs IntrType.Income exRental, 2)) ∧
      interestJEs IntrType.Income exRental =
        [⟨192, some 60, none⟩, ⟨185, none, some 60⟩, ⟨188, some 10, none⟩,
         ⟨190, none, some 10⟩]) ∧
    (nAge (exSnapshot 2 1 100 400 100 0) exRental = rnd64 (56 / 10) ∧
      decisionChain noFault exRental (exSnapshot 2 1 100 400 100 0) scenarioB =
        (scenarioB, Except.ok (interestJEs IntrType.Suspense exRental, 2)) ∧
      interestJEs IntrType.Suspense exRental =
        [⟨192, some 60, none⟩, ⟨185, none, some 60⟩, ⟨188, some 10, none⟩,
         ⟨194, none, some 10⟩]) :=
  ⟨⟨by decide!, by decide!,
      ((entries_of_rows_without_provision noFault exRental (exSnapshot 1 0 100 0 0 0)
        scenarioA ⟨exStore 2 0 100 0 0 0, [(Op.UpdateRecoveryStatus, none)]⟩
        (interestJEs IntrType.Income exRental) 2 (by decide!)).1
        (Or.inl ⟨rfl, Or.inr (by decide!)⟩)).trans (by decide!)⟩,
    ⟨by decide!, by decide!,
      ((entries_of_rows_without_provision noFault exRental (exSnapshot 2 1 100 400 100 0)
        scenarioB scenarioB (interestJEs IntrType.Suspense exRental) 2 (by decide!)).2
        (Or.inl ⟨rfl, rfl, by decide!⟩)).trans (by decide!)⟩⟩

/-- Counterexample to C3 as stated: a snapshot with status Active, payment 0 and
arrears plus installment 0 (capital arrears -60, capital 50, interest 10).  Its age
is `0 / 0 = NaN`, both `nAge <= 0` and `nAge > 0` are false, no branch of the
decision chain is taken and `dayEndJEs` is empty instead of the four Income
entries. -/
theorem entries_active_nan_age :
    (exSnapshot 1 0 0 (-60) 0 0).RecoveryStatus = 1 ∧
    nAge (exSnapshot 1 0 0 (-60) 0 0) exRental = Age.nan ∧
    decisionChain noFault exRental (exSnapshot 1 0 0 (-60) 0 0)
        ⟨exStore 1 0 0 (-60) 0 0, []⟩ =
      (⟨exStore 1 0 0 (-60) 0 0, []⟩, Except.ok ([], 1)) := by
  refine ⟨by decide!, by decide!, by decide!⟩

/-! ## Properties of one pass through the loop body -/

theorem ledgerRows_debit_mem (tid : Int) (jes : List JournalEntry) (e : JournalEntry) (d : ℚ)
    (he : e ∈ jes) (hd : e.Debit = some d) :
    (⟨tid, e.Account, EntryType.DR, d⟩ : AccountTransactionRow) ∈ ledgerRows tid jes := by
  induction jes with
  | nil => cases he
  | cons a l ih =>
    rcases List.mem_cons.1 he with rfl | hl
    · simp [ledgerRows, hd]
    · simp only [ledgerRows, List.mem_append]
      exact Or.inr (ih hl)

theorem ledgerRows_credit_mem (tid : Int) (jes : List JournalEntry) (e : JournalEntry) (c : ℚ)
    (he : e ∈ jes) (hc : e.Credit = some c) :
    (⟨tid, e.Account, EntryType.CR, c⟩ : AccountTransactionRow) ∈ ledgerRows tid jes := by
  induction jes with
  | nil => cases he
  | cons a l ih =>
    rcases List.mem_cons.1 he with rfl | hl
    · simp [ledgerRows, hc]
    · simp only [ledgerRows, List.mem_append]
      exact Or.inr (ih hl)

/-- C7, as amended (receivable move).  For every installment `Run` processes whose
snapshot matches a row of the decision chain (status BDP; or an age that is not
`NaN` with status Active, NPL, or Arrears with doubtful flag 0 or 1), the entries
issued contain a debit to Receivable-Arrears (192) and a credit to Receivable (185),
each by capital + interest, and the two ledger rows are written under the header of
the installment. -/
theorem receivable_move_posted (F : Nat → Bool) (rental : ContractScheduleDueRental)
    (w w' : World) (u : UpdatedContract) (cF : ContractFinancial)
    (h : processRental F rental w = (w', Except.ok u))
    (hcF : queries.ContractFinancial w.store rental.ContractID = some cF)
    (hrow : cF.RecoveryStatus = 4 ∨
      (nAge cF rental ≠ Age.nan ∧
        (cF.RecoveryStatus = 1 ∨ cF.RecoveryStatus = 3 ∨
          (cF.RecoveryStatus = 2 ∧ (cF.Doubtful = 0 ∨ cF.Doubtful = 1))))) :
    ∃ (dayEndJEs : List JournalEntry) (st : Int) (wc wd : World),
      decisionChain F rental cF wc = (wd, Except.ok (dayEndJEs, st)) ∧
      (⟨192, some (rental.Capital + rental.Interest), none⟩ : JournalEntry) ∈ dayEndJEs ∧
      (⟨185, none, some (rental.Capital + rental.Interest)⟩ : JournalEntry) ∈ dayEndJEs ∧
      (⟨(w.store.transaction.length : Int) + 1, 192, EntryType.DR,
          rental.Capital + rental.Interest⟩ : AccountTransactionRow) ∈
        w'.store.account_transaction ∧
      (⟨(w.store.transaction.length : Int) + 1, 185, EntryType.CR,
          rental.Capital + rental.Interest⟩ : AccountTransactionRow) ∈
        w'.store.account_transaction := by
  obtain ⟨cF', jes, st, prov, dbt, hcF', -, hrows, -, -, hled, wc, wd, hchain⟩ :=
    processRental_summary h
  rw [hcF] at hcF'
  cases hcF'
  have hmem : (⟨192, some (rental.Capital + rental.Interest), none⟩ : JournalEntry) ∈ jes ∧
      (⟨185, none, some (rental.Capital + rental.Interest)⟩ : JournalEntry) ∈ jes := by
    have hle := Age.le_or_gt (nAge cF rental) 0
    have h6 := Age.ge_or_lt (nAge cF rental) 6
    have h12 := Age.ge_or_lt (nAge cF rental) 12
    rcases hrows with
      ⟨-, -, rfl, -⟩ | ⟨-, -, rfl, -⟩ | ⟨-, -, -, -, rfl, -⟩ | ⟨-, -, -, rfl, -⟩ |
      ⟨-, -, -, -, rfl, -⟩ | ⟨-, -, -, rfl, -⟩ | ⟨-, -, -, rfl, -⟩ | ⟨-, -, rfl, -⟩ |
      ⟨-, rfl, -⟩ | ⟨h1, h2, h3, h4, rfl, -⟩
    any_goals (simp [interestJEs, suspenseJEs, capitalProvisionJEs, incomeToSuspenseJEs])
    rcases hrow with hs | ⟨hn, hs | hs | ⟨hs, hd⟩⟩
    · exact absurd hs h4
    · have := h1 hs; have := hle hn; simp_all
    · have := h3 hs; have := h12 hn; simp_all
    · have := h2 hs hd.symm; have := h6 hn; simp_all
  refine ⟨jes, st, wc, wd, hchain, hmem.1, hmem.2, ?_, ?_⟩
  · rw [hled]
    exact List.mem_append_right _ (ledgerRows_debit_mem _ jes _ _ hmem.1 rfl)
  · rw [hled]
    exact List.mem_append_right _ (ledgerRows_credit_mem _ jes _ _ hmem.2 rfl)

/-- Witness of C7 as amended: Scenario A, where the two rows of the receivable move
are written with amount 50 + 10. -/
theorem receivable_move_posted_witness :
    processRental noFault exRental scenarioA = (scenarioAafter, Except.ok ⟨1, 1, 2⟩) ∧
    queries.ContractFinancial scenarioA.store 1 = some (exSnapshot 1 0 100 0 0 0) ∧
    nAge (exSnapshot 1 0 100 0 0 0) exRental ≠ Age.nan ∧
    (⟨1, 192, EntryType.DR, 50 + 10⟩ : AccountTransactionRow) ∈
      scenarioAafter.store.account_transaction ∧
    (⟨1, 185, EntryType.CR, 50 + 10⟩ : AccountTransactionRow) ∈
      scenarioAafter.store.account_transaction := by
  obtain ⟨jes, st, wc, wd, -, -, -, h1, h2⟩ := receivable_move_posted noFault exRental scenarioA
    scenarioAafter ⟨1, 1, 2⟩ (exSnapshot 1 0 100 0 0 0)
    (by decide!) (by decide!) (Or.inr ⟨by decide!, Or.inl rfl⟩)
  exact ⟨by decide!, by decide!, by decide!, h1, h2⟩

/-- Counterexample to C7 as stated: three installments that `Run` processes (arrears
added, installment flagged issued, header written) without any ledger row, because
no row of the decision chain matches: a recovery status outside 1..4; status
Arrears with a doubtful flag that is neither 0 nor 1; status Active with payment 0
and total arrears plus installment 0, whose age is `NaN`. -/
theorem receivable_move_not_always_posted :
    processRental noFault exRental ⟨exStore 5 0 100 0 0 0, []⟩ =
      (⟨⟨[⟨7, 1, 50, 10, 0, 20, 1, 1⟩, ⟨8, 1, 50, 10, 0, 50, 0, 1⟩],
          [⟨1, 1, 5, 0, 100, 50, 10, 0, 99⟩], [⟨1, 1, 1, 7⟩], []⟩,
        [(Op.ContractFinancial, none), (Op.InsertTransaction, none),
          (Op.UpdateArrears, none), (Op.UpdateDailyEntryIssued, none)]⟩,
        Except.ok ⟨1, 5, 5⟩) ∧
    processRental noFault exRental ⟨exStore 2 2 100 0 0 0, []⟩ =
      (⟨⟨[⟨7, 1, 50, 10, 0, 20, 1, 1⟩, ⟨8, 1, 50, 10, 0, 50, 0, 1⟩],
          [⟨1, 1, 2, 2, 100, 50, 10, 0, 99⟩], [⟨1, 1, 1, 7⟩], []⟩,
        [(Op.ContractFinancial, none), (Op.InsertTransaction, none),
          (Op.UpdateArrears, none), (Op.UpdateDailyEntryIssued, none)]⟩,
        Except.ok ⟨1, 2, 2⟩) ∧
    processRental noFault exRental ⟨exStore 1 0 0 (-60) 0 0, []⟩ =
      (⟨⟨[⟨7, 1, 50, 10, 0, 20, 1, 1⟩, ⟨8, 1, 50, 10, 0, 50, 0, 1⟩],
          [⟨1, 1, 1, 0, 0, -10, 10, 0, 99⟩], [⟨1, 1, 1, 7⟩], []⟩,
        [(Op.ContractFinancial, none), (Op.InsertTransaction, none),
          (Op.UpdateArrears, none), (Op.UpdateDailyEntryIssued, none)]⟩,
        Except.ok ⟨1, 1, 1⟩) := by
  refine ⟨by decide!, by decide!, by decide!⟩

/-- C2 (recovery status only moves forward).  For a snapshot with doubtful flag
in {0, 1}, with `age` the value `nAge` the code computes in `float64` from
`(capitalArrears + interestArrears + capital + interest) / payment`: the status
`Run` reports as `UpdatedRecoveryStatus` is the one it persists; it is Arrears
when the status is Active and `age > 0`, NPL when Arrears and `age >= 6` (either
doubtful value), BDP when NPL and `age >= 12`, and the prior status in every other
case (Active with `age <= 0`, Arrears with `age < 6`, NPL with `age < 12`, BDP);
so it is never lower than the prior status and never more than one stage higher.
This holds for every status value and every payment. -/
theorem recovery_status_moves_forward (F : Nat → Bool) (rental : ContractScheduleDueRental)
    (w w' : World) (u : UpdatedContract) (cF : ContractFinancial)
    (h : processRental F rental w = (w', Except.ok u))
    (hcF : queries.ContractFinancial w.store rental.ContractID = some cF)
    (hdoubt : cF.Doubtful = 0 ∨ cF.Doubtful = 1) :
    u.RecoveryStatus = cF.RecoveryStatus ∧
    (queries.ContractFinancial w'.store rental.ContractID).map (fun x => x.RecoveryStatus) =
      some u.UpdatedRecoveryStatus ∧
    (cF.RecoveryStatus = 1 ∧ (nAge cF rental).gt 0 = true → u.UpdatedRecoveryStatus = 2) ∧
    (cF.RecoveryStatus = 2 ∧ (nAge cF rental).ge 6 = true → u.UpdatedRecoveryStatus = 3) ∧
    (cF.RecoveryStatus = 3 ∧ (nAge cF rental).ge 12 = true → u.UpdatedRecoveryStatus = 4) ∧
    ((cF.RecoveryStatus = 1 ∧ (nAge cF rental).le 0 = true) ∨
        (cF.RecoveryStatus = 2 ∧ (nAge cF rental).lt 6 = true) ∨
        (cF.RecoveryStatus = 3 ∧ (nAge cF rental).lt 12 = true) ∨
        cF.RecoveryStatus = 4 →
      u.UpdatedRecoveryStatus = cF.RecoveryStatus) ∧
    (¬(cF.RecoveryStatus = 1 ∧ (nAge cF rental).gt 0 = true) →
        ¬(cF.RecoveryStatus = 2 ∧ (nAge cF rental).ge 6 = true) →
        ¬(cF.RecoveryStatus = 3 ∧ (nAge cF rental).ge 12 = true) →
      u.UpdatedRecoveryStatus = cF.RecoveryStatus) ∧
    cF.RecoveryStatus ≤ u.UpdatedRecoveryStatus ∧
    u.UpdatedRecoveryStatus ≤ cF.RecoveryStatus + 1 := by
  obtain ⟨cF', jes, st, prov, dbt, hcF', rfl, hrows, hsnap, -, -, -⟩ := processRental_summary h
  rw [hcF] at hcF'
  cases hcF'
  have hle := Age.not_le_and_gt (nAge cF rental) 0
  have h6 := Age.not_ge_and_lt (nAge cF rental) 6
  have h12 := Age.not_ge_and_lt (nAge cF rental) 12
  refine ⟨rfl, by rw [hsnap]; simp, ?_⟩
  simp only []
  rcases hrows with
    ⟨hs, ha, -, rfl, -⟩ | ⟨hs, ha, -, rfl, -⟩ | ⟨hs, hd, ha, -, -, rfl, -⟩ |
    ⟨hs, hd, ha, -, rfl, -⟩ | ⟨hs, hd, ha, -, -, rfl, -⟩ | ⟨hs, hd, ha, -, rfl, -⟩ |
    ⟨hs, ha, -, -, rfl, -⟩ | ⟨hs, ha, -, rfl, -⟩ | ⟨hs, -, rfl, -⟩ |
    ⟨h1, h2, h3, h4, -, rfl, -⟩
  · simp_all
  · simp_all
  · simp_all
  · simp_all
  · simp_all
  · simp_all
  · simp_all
  · simp_all
  · simp_all
  · refine ⟨?_, ?_, ?_, fun _ => rfl, fun _ _ _ => rfl, le_refl _, by omega⟩
    · rintro ⟨hs, ha⟩
      exact absurd ha (by rw [(h1 hs).2]; simp)
    · rintro ⟨hs, ha⟩
      exact absurd ha (by rw [(h2 hs hdoubt.symm).1]; simp)
    · rintro ⟨hs, ha⟩
      exact absurd ha (by rw [(h3 hs).1]; simp)

/-- Witness of C2: Scenario A, age 0.6, Active to Arrears. -/
theorem recovery_status_moves_forward_witness :
    processRental noFault exRental scenarioA = (scenarioAafter, Except.ok ⟨1, 1, 2⟩) ∧
    queries.ContractFinancial scenarioA.store 1 = some (exSnapshot 1 0 100 0 0 0) ∧
    (queries.ContractFinancial scenarioAafter.store 1).map (fun x => x.RecoveryStatus) =
      some 2 :=
  ⟨by decide!, by decide!,
    (recovery_status_moves_forward noFault exRental scenarioA scenarioAafter ⟨1, 1, 2⟩
      (exSnapshot 1 0 100 0 0 0) (by decide!) (by decide!) (Or.inl rfl)).2.1⟩

theorem mathRound_intCast (k : ℤ) : mathRound (k : ℚ) = (k : ℚ) := by
  unfold mathRound
  have h0 : ⌊(1 / 2 : ℚ)⌋ = 0 := by
    rw [Int.floor_eq_iff]; norm_num
  split_ifs
  · have : (-(k : ℚ) + 1 / 2) = ((-k : ℤ) : ℚ) + 1 / 2 := by push_cast; ring
    rw [this, Int.floor_int_add, h0]
    push_cast; ring
  · rw [Int.floor_int_add, h0]
    push_cast; ring

theorem mathRound_nonneg (x : ℚ) (hx : 0 ≤ x) : 0 ≤ mathRound x := by
  unfold mathRound
  rw [if_neg (not_lt.2 hx)]
  have : (0 : ℤ) ≤ ⌊x + 1 / 2⌋ := Int.floor_nonneg.2 (by linarith)
  exact_mod_cast this

/-- C4 (BDP top-up).  For a snapshot with status NPL and age `>= 12` (the `float64`
value `nAge` the code computes), with `R` the
outstanding capital of the contract (sum of scheduled capital minus paid capital
over its recurring-rental schedule rows) and `P` the provisioned capital of the
snapshot: the decision chain builds the list
`[DR 195 t, CR 196 t, DR 192 c+i, CR 185 c+i, DR 188 i, CR 194 i]` with
`t = round((R - P) * 100) / 100`, the six ledger rows are written, the status
reported and persisted is BDP, the provisioned capital after the step is `P + t`,
and that is `R` whenever `R` and `P` are whole multiples of 0.01. -/
theorem bdp_top_up (F : Nat → Bool) (rental : ContractScheduleDueRental)
    (w w' : World) (u : UpdatedContract) (cF : ContractFinancial)
    (h : processRental F rental w = (w', Except.ok u))
    (hcF : queries.ContractFinancial w.store rental.ContractID = some cF)
    (hs : cF.RecoveryStatus = 3) (hage : (nAge cF rental).ge 12 = true) :
    (∃ wc wd, decisionChain F rental cF wc = (wd, Except.ok
      ([⟨195, some (mathRound ((queries.outstandingCapital w.store rental.ContractID -
            cF.CapitalProvisioned) * 100) / 100), none⟩,
        ⟨196, none, some (mathRound ((queries.outstandingCapital w.store rental.ContractID -
            cF.CapitalProvisioned) * 100) / 100)⟩,
        ⟨192, some (rental.Capital + rental.Interest), none⟩,
        ⟨185, none, some (rental.Capital + rental.Interest)⟩,
        ⟨188, some rental.Interest, none⟩,
        ⟨194, none, some rental.Interest⟩], 4))) ∧
    w'.store.account_transaction = w.store.account_transaction ++
      [⟨(w.store.transaction.length : Int) + 1, 195, EntryType.DR,
          mathRound ((queries.outstandingCapital w.store rental.ContractID -
            cF.CapitalProvisioned) * 100) / 100⟩,
        ⟨(w.store.transaction.length : Int) + 1, 196, EntryType.CR,
          mathRound ((queries.outstandingCapital w.store rental.ContractID -
            cF.CapitalProvisioned) * 100) / 100⟩,
        ⟨(w.store.transaction.length : Int) + 1, 192, EntryType.DR,
          rental.Capital + rental.Interest⟩,
        ⟨(w.store.transaction.length : Int) + 1, 185, EntryType.CR,
          rental.Capital + rental.Interest⟩,
        ⟨(w.store.transaction.length : Int) + 1, 188, EntryType.DR, rental.Interest⟩,
        ⟨(w.store.transaction.length : Int) + 1, 194, EntryType.CR, rental.Interest⟩] ∧
    u.UpdatedRecoveryStatus = 4 ∧
    ∃ x, queries.ContractFinancial w'.store rental.ContractID = some x ∧
      x.RecoveryStatus = 4 ∧
      x.CapitalProvisioned = cF.CapitalProvisioned +
        mathRound ((queries.outstandingCapital w.store rental.ContractID -
          cF.CapitalProvisioned) * 100) / 100 ∧
      ((∃ m n : ℤ, queries.outstandingCapital w.store rental.ContractID = (m : ℚ) / 100 ∧
          cF.CapitalProvisioned = (n : ℚ) / 100) →
        x.CapitalProvisioned = queries.outstandingCapital w.store rental.ContractID) := by
  obtain ⟨cF', jes, st, prov, dbt, hcF', rfl, hrows, hsnap, -, hled, wc, wd, hchain⟩ :=
    processRental_summary h
  rw [hcF] at hcF'
  cases hcF'
  have h12 := Age.not_ge_and_lt (nAge cF rental) 12
  rcases hrows with
    ⟨h1, -⟩ | ⟨h1, -⟩ | ⟨h1, -⟩ | ⟨h1, -⟩ | ⟨h1, -⟩ | ⟨h1, -⟩ |
    ⟨-, -, ⟨r, hr, rfl⟩, rfl, rfl, -⟩ | ⟨-, h2, -⟩ | ⟨h1, -⟩ | ⟨-, -, h3, -⟩
  any_goals (exfalso; omega)
  · have hR : r = queries.outstandingCapital w.store rental.ContractID := by
      unfold queries.CapitalReceivable at hr
      split_ifs at hr
      exact (Option.some.inj hr).symm
    subst hR
    refine ⟨⟨wc, wd, ?_⟩, ?_, rfl, _, (hsnap _).trans (if_pos rfl), ?_⟩
    · rw [hchain]; simp [capitalProvisionJEs, interestJEs, suspenseJEs]
    · rw [hled]; simp [capitalProvisionJEs, interestJEs, suspenseJEs, ledgerRows]
    · refine ⟨rfl, rfl, ?_⟩
      rintro ⟨m, n, hm, hn⟩
      show cF.CapitalProvisioned + _ = _
      rw [hm, hn]
      have : ((m : ℚ) / 100 - (n : ℚ) / 100) * 100 = ((m - n : ℤ) : ℚ) := by
        push_cast; ring
      rw [this, mathRound_intCast]
      push_cast; ring
  · exact absurd ⟨hage, h2⟩ h12
  · have := h3 hs
    rw [hage] at this
    exact absurd this.1 (by simp)

/-- Witness of C4: Scenario C (NPL, payment 100, arrears 1150, capital 50, interest
10, age 12.1), outstanding capital 100 of which 20 provisioned: the top-up brings
the provision to 100. -/
theorem bdp_top_up_witness :
    processRental noFault exRental scenarioC = (scenarioCafter, Except.ok ⟨1, 3, 4⟩) ∧
    nAge (exSnapshot 3 1 100 1000 150 20) exRental = rnd64 (121 / 10) ∧
    queries.outstandingCapital scenarioC.store 1 = 100 ∧
    ∃ x, queries.ContractFinancial scenarioCafter.store 1 = some x ∧
      x.RecoveryStatus = 4 ∧
      x.CapitalProvisioned = queries.outstandingCapital scenarioC.store 1 := by
  obtain ⟨-, -, -, x, hx, hst, -, hR⟩ := bdp_top_up noFault exRental scenarioC scenarioCafter
    ⟨1, 3, 4⟩ (exSnapshot 3 1 100 1000 150 20) (by decide!) (by decide!) rfl (by decide!)
  exact ⟨by decide!, by decide!, by decide!, x, hx, hst,
    hR ⟨10000, 2000, by decide!, by decide!⟩⟩

/-- C5 (reclassification row).  For a snapshot with status Arrears, doubtful 0 and
age `>= 6` (the `float64` value `nAge` the code computes), with `p` the 50% capital
provision (half of the outstanding scheduled
capital of the contract, rounded to 2 decimals) and `IA` the interest arrears of
the snapshot: the decision chain builds exactly
`[DR 195 p, CR 196 p, DR 190 IA, CR 194 IA, DR 192 c+i, CR 185 c+i, DR 188 i,
CR 194 i]`, the eight ledger rows are written, the status becomes NPL, the doubtful
flag 1, and `p` is added to the provisioned capital.  In every other case no debit
to Interest-Income (190) is issued; for Arrears with doubtful 1 and age `>= 6` the
doubtful flag is left as it is. -/
theorem reclassification_row (F : Nat → Bool) (rental : ContractScheduleDueRental)
    (w w' : World) (u : UpdatedContract) (cF : ContractFinancial)
    (h : processRental F rental w = (w', Except.ok u))
    (hcF : queries.ContractFinancial w.store rental.ContractID = some cF) :
    (cF.RecoveryStatus = 2 ∧ cF.Doubtful = 0 ∧ (nAge cF rental).ge 6 = true →
      (∃ wc wd, decisionChain F rental cF wc = (wd, Except.ok
        ([⟨195, some (sqlRound2 (queries.outstandingCapital w.store rental.ContractID / 2)),
            none⟩,
          ⟨196, none,
            some (sqlRound2 (queries.outstandingCapital w.store rental.ContractID / 2))⟩,
          ⟨190, some cF.InterestArrears, none⟩,
          ⟨194, none, some cF.InterestArrears⟩,
          ⟨192, some (rental.Capital + rental.Interest), none⟩,
          ⟨185, none, some (rental.Capital + rental.Interest)⟩,
          ⟨188, some rental.Interest, none⟩,
          ⟨194, none, some rental.Interest⟩], 3))) ∧
      w'.store.account_transaction = w.store.account_transaction ++
        [⟨(w.store.transaction.length : Int) + 1, 195, EntryType.DR,
            sqlRound2 (queries.outstandingCapital w.store rental.ContractID / 2)⟩,
          ⟨(w.store.transaction.length : Int) + 1, 196, EntryType.CR,
            sqlRound2 (queries.outstandingCapital w.store rental.ContractID / 2)⟩,
          ⟨(w.store.transaction.length : Int) + 1, 190, EntryType.DR, cF.InterestArrears⟩,
          ⟨(w.store.transaction.length : Int) + 1, 194, EntryType.CR, cF.InterestArrears⟩,
          ⟨(w.store.transaction.length : Int) + 1, 192, EntryType.DR,
            rental.Capital + rental.Interest⟩,
          ⟨(w.store.transaction.length : Int) + 1, 185, EntryType.CR,
            rental.Capital + rental.Interest⟩,
          ⟨(w.store.transaction.length : Int) + 1, 188, EntryType.DR, rental.Interest⟩,
          ⟨(w.store.transaction.length : Int) + 1, 194, EntryType.CR, rental.Interest⟩] ∧
      u.UpdatedRecoveryStatus = 3 ∧
      ∃ x, queries.ContractFinancial w'.store rental.ContractID = some x ∧
        x.RecoveryStatus = 3 ∧ x.Doubtful = 1 ∧
        x.CapitalProvisioned = cF.CapitalProvisioned +
          sqlRound2 (queries.outstandingCapital w.store rental.ContractID / 2)) ∧
    (¬(cF.RecoveryStatus = 2 ∧ cF.Doubtful = 0 ∧ (nAge cF rental).ge 6 = true) →
      ∃ dayEndJEs st wc wd,
        decisionChain F rental cF wc = (wd, Except.ok (dayEndJEs, st)) ∧
        (∀ e ∈ dayEndJEs, e.Account = 190 → e.Debit = none) ∧
        w'.store.account_transaction = w.store.account_transaction ++
          ledgerRows ((w.store.transaction.length : Int) + 1) dayEndJEs ∧
        ∀ r ∈ ledgerRows ((w.store.transaction.length : Int) + 1) dayEndJEs,
          ¬(r.account_id = 190 ∧ r.type = EntryType.DR)) ∧
    (cF.RecoveryStatus = 2 ∧ cF.Doubtful = 1 ∧ (nAge cF rental).ge 6 = true →
      u.UpdatedRecoveryStatus = 3 ∧
      ∃ x, queries.ContractFinancial w'.store rental.ContractID = some x ∧
        x.RecoveryStatus = 3 ∧ x.Doubtful = cF.Doubtful) := by
  obtain ⟨cF', jes, st, prov, dbt, hcF', rfl, hrows, hsnap, -, hled, wc, wd, hchain⟩ :=
    processRental_summary h
  rw [hcF] at hcF'
  cases hcF'
  have h6 := Age.not_ge_and_lt (nAge cF rental) 6
  have hsnap' := (hsnap rental.ContractID).trans (if_pos rfl)
  have hnpl : ∀ p, queries.NplCapitalProvision w.store rental.ContractID = some p →
      p = sqlRound2 (queries.outstandingCapital w.store rental.ContractID / 2) := by
    intro p hp
    unfold queries.NplCapitalProvision at hp
    split_ifs at hp
    exact (Option.some.inj hp).symm
  refine ⟨?_, ?_, ?_⟩
  · rintro ⟨hs, hd, ha⟩
    rcases hrows with
      ⟨h1, -⟩ | ⟨h1, -⟩ | ⟨-, h2, -⟩ | ⟨-, h2, -⟩ | ⟨-, -, -, hp, rfl, rfl, rfl⟩ |
      ⟨-, -, h3, -⟩ | ⟨h1, -⟩ | ⟨h1, -⟩ | ⟨h1, -⟩ | ⟨-, h2, -⟩
    any_goals (exfalso; omega)
    · have hp' := hnpl _ hp
      subst hp'
      refine ⟨⟨wc, wd, ?_⟩, ?_, rfl, _, hsnap', rfl, rfl, rfl⟩
      · rw [hchain]
        simp [capitalProvisionJEs, incomeToSuspenseJEs, interestJEs, suspenseJEs]
      · rw [hled]
        simp [capitalProvisionJEs, incomeToSuspenseJEs, interestJEs, suspenseJEs, ledgerRows]
    · exact absurd ⟨ha, h3⟩ h6
    · have := h2 hs (Or.inr hd)
      rw [ha] at this
      exact absurd this.1 (by simp)
  · intro hnot
    refine ⟨jes, st, wc, wd, hchain, ?_, hled, ?_⟩
    · rcases hrows with
        ⟨-, -, rfl, -⟩ | ⟨-, -, rfl, -⟩ | ⟨-, -, -, -, rfl, -⟩ | ⟨-, -, -, rfl, -⟩ |
        ⟨hs, hd, ha, -⟩ | ⟨-, -, -, rfl, -⟩ | ⟨-, -, -, rfl, -⟩ | ⟨-, -, rfl, -⟩ |
        ⟨-, rfl, -⟩ | ⟨-, -, -, -, rfl, -⟩
      any_goals
        (intro e he
         simp [interestJEs, suspenseJEs, capitalProvisionJEs] at he
         rcases he with rfl | rfl | rfl | rfl | rfl | rfl <;> simp)
      · exact absurd ⟨hs, hd, ha⟩ hnot
      · intro e he; cases he
    · rcases hrows with
        ⟨-, -, rfl, -⟩ | ⟨-, -, rfl, -⟩ | ⟨-, -, -, -, rfl, -⟩ | ⟨-, -, -, rfl, -⟩ |
        ⟨hs, hd, ha, -⟩ | ⟨-, -, -, rfl, -⟩ | ⟨-, -, -, rfl, -⟩ | ⟨-, -, rfl, -⟩ |
        ⟨-, rfl, -⟩ | ⟨-, -, -, -, rfl, -⟩
      any_goals
        (intro r hr
         simp [interestJEs, suspenseJEs, capitalProvisionJEs, ledgerRows] at hr
         rcases hr with rfl | rfl | rfl | rfl | rfl | rfl <;> simp)
      · exact absurd ⟨hs, hd, ha⟩ hnot
      · intro r hr; cases hr
  · rintro ⟨hs, hd, ha⟩
    rcases hrows with
      ⟨h1, -⟩ | ⟨h1, -⟩ | ⟨-, -, -, -, -, rfl, rfl⟩ | ⟨-, -, h3, -⟩ | ⟨-, h2, -⟩ |
      ⟨-, h2, -⟩ | ⟨h1, -⟩ | ⟨h1, -⟩ | ⟨h1, -⟩ | ⟨-, h2, -⟩
    any_goals (exfalso; omega)
    · exact ⟨rfl, _, hsnap', rfl, hd.symm⟩
    · exact absurd ⟨ha, h3⟩ h6
    · have := h2 hs (Or.inl hd)
      rw [ha] at this
      exact absurd this.1 (by simp)

/-- Witness of C5: Arrears, not doubtful, arrears 550 of which 100 interest, payment
100 (age 6.1), outstanding capital 100: provision 50, eight ledger rows. -/
theorem reclassification_row_witness :
    processRental noFault exRental scenarioR = (scenarioRafter, Except.ok ⟨1, 2, 3⟩) ∧
    nAge (exSnapshot 2 0 100 450 100 0) exRental = rnd64 (61 / 10) ∧
    sqlRound2 (queries.outstandingCapital scenarioR.store 1 / 2) = 50 ∧
    ∃ x, queries.ContractFinancial scenarioRafter.store 1 = some x ∧
      x.RecoveryStatus = 3 ∧ x.Doubtful = 1 ∧
      x.CapitalProvisioned = 0 + sqlRound2 (queries.outstandingCapital scenarioR.store 1 / 2) :=
  ⟨by decide!, by decide!, by decide!,
    ((reclassification_row noFault exRental scenarioR scenarioRafter ⟨1, 2, 3⟩
      (exSnapshot 2 0 100 450 100 0) (by decide!) (by decide!)).1
        ⟨rfl, rfl, by decide!⟩).2.2.2⟩

theorem sqlRound2_nonneg (x : ℚ) (hx : 0 ≤ x) : 0 ≤ sqlRound2 x := by
  unfold sqlRound2
  exact div_nonneg (mathRound_nonneg _ (by positivity)) (by norm_num)

/-- C6, as amended (provisioning monotonicity).  For every store and every
installment `Run` processes, the provisioned capital of every contract after the
installment is at least its value before, provided the outstanding capital of the
contract of the installment (sum of scheduled capital minus paid capital) is
non-negative when the 50% provision is taken (status Arrears, age `>= 6`) and not
below the capital already provisioned when the top-up is taken (status NPL, age
`>= 12`). -/
theorem provisioned_capital_monotone (F : Nat → Bool) (rental : ContractScheduleDueRental)
    (w w' : World) (u : UpdatedContract) (cF : ContractFinancial)
    (h : processRental F rental w = (w', Except.ok u))
    (hcF : queries.ContractFinancial w.store rental.ContractID = some cF)
    (hnpl : cF.RecoveryStatus = 2 ∧ (nAge cF rental).ge 6 = true →
      0 ≤ queries.outstandingCapital w.store rental.ContractID)
    (hbdp : cF.RecoveryStatus = 3 ∧ (nAge cF rental).ge 12 = true →
      cF.CapitalProvisioned ≤ queries.outstandingCapital w.store rental.ContractID) :
    ∀ (c : Int) (x x' : ContractFinancial),
      queries.ContractFinancial w.store c = some x →
      queries.ContractFinancial w'.store c = some x' →
      x.CapitalProvisioned ≤ x'.CapitalProvisioned := by
  obtain ⟨cF', jes, st, prov, dbt, hcF', -, hrows, hsnap, -, -, -⟩ := processRental_summary h
  rw [hcF] at hcF'
  cases hcF'
  have hprov : 0 ≤ prov := by
    rcases hrows with
      ⟨-, -, -, -, rfl, -⟩ | ⟨-, -, -, -, rfl, -⟩ | ⟨hs, -, ha, hp, -⟩ |
      ⟨-, -, -, -, -, rfl, -⟩ | ⟨hs, -, ha, hp, -⟩ | ⟨-, -, -, -, -, rfl, -⟩ |
      ⟨hs, ha, ⟨r, hr, rfl⟩, -⟩ |
      ⟨-, -, -, -, rfl, -⟩ | ⟨-, -, -, rfl, -⟩ | ⟨-, -, -, -, -, -, rfl, -⟩
    any_goals exact le_refl _
    · unfold queries.NplCapitalProvision at hp
      split_ifs at hp
      rw [← Option.some.inj hp]
      exact sqlRound2_nonneg _ (div_nonneg (hnpl ⟨hs, ha⟩) (by norm_num))
    · unfold queries.NplCapitalProvision at hp
      split_ifs at hp
      rw [← Option.some.inj hp]
      exact sqlRound2_nonneg _ (div_nonneg (hnpl ⟨hs, ha⟩) (by norm_num))
    · unfold queries.CapitalReceivable at hr
      split_ifs at hr
      rw [← Option.some.inj hr]
      have := hbdp ⟨hs, ha⟩
      exact div_nonneg (mathRound_nonneg _ (by nlinarith)) (by norm_num)
  intro c x x' hx hx'
  rw [hsnap] at hx'
  by_cases hc : c = rental.ContractID
  · rw [if_pos hc] at hx'
    subst hc
    rw [hcF] at hx
    cases hx
    cases hx'
    show cF.CapitalProvisioned ≤ cF.CapitalProvisioned + prov
    linarith
  · rw [if_neg hc, hx] at hx'
    cases hx'
    exact le_refl _

/-- Witness of C6 as amended: Scenario C, where 20 is provisioned against an
outstanding capital of 100; the provision goes from 20 to 100. -/
theorem provisioned_capital_monotone_witness :
    processRental noFault exRental scenarioC = (scenarioCafter, Except.ok ⟨1, 3, 4⟩) ∧
    queries.ContractFinancial scenarioC.store 1 = some (exSnapshot 3 1 100 1000 150 20) ∧
    queries.ContractFinancial scenarioCafter.store 1 =
      some (exSnapshot 4 1 100 1050 160 100) ∧
    (exSnapshot 3 1 100 1000 150 20).CapitalProvisioned ≤
      (exSnapshot 4 1 100 1050 160 100).CapitalProvisioned :=
  ⟨by decide!, by decide!, by decide!,
    provisioned_capital_monotone noFault exRental scenarioC scenarioCafter ⟨1, 3, 4⟩
      (exSnapshot 3 1 100 1000 150 20) (by decide!) (by decide!) (by decide!)
      (fun _ => by decide!) 1 _ _ (by decide!) (by decide!)⟩

/-- Counterexample to C6 as stated: an NPL contract of age 12.1 whose provisioned
capital (150) exceeds its outstanding capital (100).  The top-up
`round((100 - 150) * 100) / 100 = -50` is added to the stored value, which goes
down from 150 to 100. -/
theorem provisioned_capital_can_decrease :
    processRental noFault exRental scenarioOver =
      (scenarioOverAfter, Except.ok ⟨1, 3, 4⟩) ∧
    (queries.ContractFinancial scenarioOver.store 1).map (fun x => x.CapitalProvisioned) =
      some 150 ∧
    (queries.ContractFinancial scenarioOverAfter.store 1).map
      (fun x => x.CapitalProvisioned) = some 100 ∧
    ¬ ((150 : ℚ) ≤ 100) := by
  refine ⟨by decide!, by decide!, by decide!, by decide!⟩

/-! ## Properties of a run -/

theorem loadDueRentals_ok {F : Nat → Bool} {date : Nat} {contract : Int} {manual : Bool}
    {w w1 : World} {rs : List ContractScheduleDueRental}
    (h : loadDueRentals F date contract manual w = (w1, Except.ok rs)) :
    rs = (if manual = true then queries.DueRentalsByContract w.store date contract
      else queries.DueRentals w.store date) ∧
    w1 = ⟨w.store, w.log ++
      [(if manual = true then Op.DueRentalsByContract else Op.DueRentals, none)]⟩ := by
  unfold loadDueRentals at h
  split_ifs at h with hm
  · simp only [access_ok_iff, Except.ok.injEq, Prod.mk.injEq] at h
    obtain ⟨-, s, ⟨rfl, rfl⟩, rfl⟩ := h
    simp [hm]
  · simp only [access_ok_iff, Except.ok.injEq, Prod.mk.injEq] at h
    obtain ⟨-, s, ⟨rfl, rfl⟩, rfl⟩ := h
    simp [hm]

/-- C9 (all or nothing).  Every data-access operation of `Run` goes through the
log and may fail.  The operations a run appends to the log are either all
successful, and then `Run` returns a nil error, the elapsed time and one
`UpdatedContract` per loaded installment, in loader order, whose `ContractID` is
that of the installment and whose `RecoveryStatus` is the status of the snapshot
stored when the installment is reached; or they end with a failed operation,
preceded by successful ones only, and then `Run` returns the error of that
operation with a nil update list and a zero duration. -/
theorem run_all_or_nothing (F : Nat → Bool) (sinceStart date : Nat) (contract : Int)
    (manual : Bool) (w : World) :
    ∃ ops, (Run F sinceStart date contract manual w).1.log = w.log ++ ops ∧
      (((∀ o ∈ ops, o.2 = none) ∧
          ∃ us, (Run F sinceStart date contract manual w).2 = ⟨some us, sinceStart, none⟩ ∧
            us.length =
              (if manual = true then queries.DueRentalsByContract w.store date contract
                else queries.DueRentals w.store date).length ∧
            ∀ pre r post,
              (if manual = true then queries.DueRentalsByContract w.store date contract
                else queries.DueRentals w.store date) = pre ++ r :: post →
              ∃ u cF, us[pre.length]? = some u ∧ u.ContractID = r.ContractID ∧
                queries.ContractFinancial
                  (runLoop F pre [] ⟨w.store, w.log ++
                    [(if manual = true then Op.DueRentalsByContract else Op.DueRentals,
                      none)]⟩).1.store r.ContractID = some cF ∧
                u.RecoveryStatus = cF.RecoveryStatus) ∨
        (∃ pre op e, ops = pre ++ [(op, some e)] ∧ (∀ o ∈ pre, o.2 = none) ∧
          (Run F sinceStart date contract manual w).2 = ⟨none, 0, some e⟩)) := by
  have hlog := LogOK_bind _ _ (LogOK_loadDueRentals F date contract manual)
    (fun dueRentals => LogOK_runLoop F dueRentals []) w
  unfold Run
  rcases hm : (loadDueRentals F date contract manual >>= fun dueRentals =>
      runLoop F dueRentals []) w with ⟨w', e | us⟩
  · rw [hm] at hlog
    obtain ⟨pre, op, hl, hpre⟩ := hlog
    exact ⟨pre ++ [(op, some e)], hl, Or.inr ⟨pre, op, e, rfl, hpre, rfl⟩⟩
  · rw [hm] at hlog
    obtain ⟨ops, hl, hops⟩ := hlog
    refine ⟨ops, hl, Or.inl ⟨hops, us, rfl, ?_, ?_⟩⟩
    · rw [DB.bind_ok_iff] at hm
      obtain ⟨rs, w1, h1, h2⟩ := hm
      obtain ⟨hrs, -⟩ := loadDueRentals_ok h1
      rw [← hrs]
      exact runLoop_length F rs _ _ _ h2
    · intro pre r post hsplit
      rw [DB.bind_ok_iff] at hm
      obtain ⟨rs, w1, h1, h2⟩ := hm
      obtain ⟨hrs, hw1⟩ := loadDueRentals_ok h1
      rw [← hrs] at hsplit
      rw [← hw1]
      obtain ⟨wk, usk, wk1, u, h3, h4, -, h5⟩ := runLoop_nth F rs _ _ _ h2 pre post r hsplit
      obtain ⟨cF, _, st, _, _, hcF, hu, -⟩ := processRental_summary h4
      refine ⟨u, cF, h5, ?_, ?_, ?_⟩
      · rw [hu]
      · rw [h3]; exact hcF
      · rw [hu]

/-- C8 (arrears accumulate sequentially).  In a successful loop over the due
rentals `pre ++ r :: post`, the rental `r` is processed in the world the loop
leaves after `pre`: the decision chain classifies the snapshot `x` stored there
(status, doubtful flag and provisioned capital as left by the previous
installment); the step adds exactly the capital of `r` to the capital arrears of
the contract and its interest to the interest arrears, and flags the installment
issued.  Hence, with `x0` the snapshot of the contract at the start of the loop,
`x` has the payment of `x0` and the arrears of `x0` plus the capital and interest
of the earlier rentals of the contract, and the age used for `r` is the `float64`
value of (capital arrears + interest arrears + capital + interest) / payment on
these accumulated arrears, whose exact numerator is initial capital arrears +
initial interest arrears + capital and interest of the rentals of the contract up
to and including `r`. -/
theorem arrears_accumulate (F : Nat → Bool) (rs : List ContractScheduleDueRental)
    (w w' : World) (us : List UpdatedContract)
    (h : runLoop F rs [] w = (w', Except.ok us))
    (pre post : List ContractScheduleDueRental) (r : ContractScheduleDueRental)
    (hrs : rs = pre ++ r :: post) :
    ∃ wk usk wk1 u x x1 x0,
      runLoop F pre [] w = (wk, Except.ok usk) ∧
      processRental F r wk = (wk1, Except.ok u) ∧
      queries.ContractFinancial wk.store r.ContractID = some x ∧
      (∃ jes st wc wd, decisionChain F r x wc = (wd, Except.ok (jes, st))) ∧
      queries.ContractFinancial wk1.store r.ContractID = some x1 ∧
      x1.CapitalArrears = x.CapitalArrears + r.Capital ∧
      x1.InterestArrears = x.InterestArrears + r.Interest ∧
      (∀ row ∈ wk1.store.contract_schedule, row.id = r.ID → row.daily_entry_issued = 1) ∧
      queries.ContractFinancial w.store r.ContractID = some x0 ∧
      x.Payment = x0.Payment ∧
      x.CapitalArrears = x0.CapitalArrears + capitalOf r.ContractID pre ∧
      x.InterestArrears = x0.InterestArrears + interestOf r.ContractID pre ∧
      nAge x r = Age.div
        (Age.add
          (Age.add
            (Age.add (rnd64 (x0.CapitalArrears + capitalOf r.ContractID pre))
              (rnd64 (x0.InterestArrears + interestOf r.ContractID pre)))
            (rnd64 r.Capital))
          (rnd64 r.Interest))
        (rnd64 x0.Payment) ∧
      x.CapitalArrears + x.InterestArrears + r.Capital + r.Interest =
        x0.CapitalArrears + x0.InterestArrears +
          (capitalOf r.ContractID (pre ++ [r]) + interestOf r.ContractID (pre ++ [r])) := by
  obtain ⟨wk, usk, wk1, u, h1, h2, -, -⟩ := runLoop_nth F rs w w' us h pre post r hrs
  obtain ⟨x, jes, st, prov, dbt, hx, -, -, hsnap, hsched, -, wc, wd, hchain⟩ :=
    processRental_summary h2
  obtain ⟨x0, hx0, hp, hc, hi⟩ := runLoop_snapshot F pre w wk usk h1 r.ContractID x hx
  refine ⟨wk, usk, wk1, u, x, _, x0, h1, h2, hx, ⟨jes, st, wc, wd, hchain⟩,
    (hsnap _).trans (if_pos rfl), rfl, rfl, issued_of_schedule _ _ _ hsched, hx0, hp, hc, hi,
    ?_, ?_⟩
  · unfold nAge
    simp only []
    rw [hp, hc, hi]
  · rw [hc, hi, capitalOf_append, interestOf_append, capitalOf_cons, interestOf_cons]
    simp [capitalOf, interestOf]
    ring

/-- Witness of C8: the two rentals of Scenario A in one loop.  The second one is
classified against the snapshot the first one left (status Arrears, arrears 50 and
10), with age (0 + 0 + 100 + 20) / 100 = 1.2. -/
theorem arrears_accumulate_witness :
    runLoop noFault [exRental, exRental2] [] scenarioA =
      ((runLoop noFault [exRental, exRental2] [] scenarioA).1,
        Except.ok [⟨1, 1, 2⟩, ⟨1, 2, 2⟩]) ∧
    capitalOf 1 [exRental, exRental2] + interestOf 1 [exRental, exRental2] = 120 ∧
    ∃ x, queries.ContractFinancial scenarioAafter.store 1 = some x ∧
      x = exSnapshot 2 0 100 50 10 0 ∧
      nAge x exRental2 = rnd64 (12 / 10) := by
  obtain ⟨wk, usk, wk1, u, x, x1, x0, h1, -, hx, -, -, -, -, -, hx0, -, -, -, hage, -⟩ :=
    arrears_accumulate noFault [exRental, exRental2] scenarioA
      (runLoop noFault [exRental, exRental2] [] scenarioA).1 [⟨1, 1, 2⟩, ⟨1, 2, 2⟩]
      (by decide!) [exRental] [] exRental2 rfl
  have hwk : wk = scenarioAafter := by
    have : runLoop noFault [exRental] [] scenarioA = (scenarioAafter, Except.ok [⟨1, 1, 2⟩]) := by
      decide!
    rw [this] at h1
    exact (congrArg Prod.fst h1).symm
  subst hwk
  have hx0' : x0 = exSnapshot 1 0 100 0 0 0 := by
    have : queries.ContractFinancial scenarioA.store exRental2.ContractID =
        some (exSnapshot 1 0 100 0 0 0) := by decide!
    rw [this] at hx0
    exact (Option.some.inj hx0).symm
  subst hx0'
  have hx' : x = exSnapshot 2 0 100 50 10 0 := by
    have : queries.ContractFinancial scenarioAafter.store exRental2.ContractID =
        some (exSnapshot 2 0 100 50 10 0) := by decide!
    rw [this] at hx
    exact (Option.some.inj hx).symm
  exact ⟨by decide!, by decide!, x, hx, hx', hage.trans (by decide!)⟩

theorem Run_ok {F : Nat → Bool} {sinceStart date : Nat} {contract : Int} {manual : Bool}
    {w : World} (h : (Run F sinceStart date contract manual w).2.err = none) :
    ∃ us, runLoop F (dueRentalsOf w.store date contract manual) []
        ⟨w.store, w.log ++
          [(if manual = true then Op.DueRentalsByContract else Op.DueRentals, none)]⟩ =
        ((Run F sinceStart date contract manual w).1, Except.ok us) ∧
      (Run F sinceStart date contract manual w).2 = ⟨some us, sinceStart, none⟩ := by
  unfold Run at h ⊢
  rcases hm : (loadDueRentals F date contract manual >>= fun dueRentals =>
      runLoop F dueRentals []) w with ⟨w', e | us⟩
  · rw [hm] at h; cases h
  · rw [DB.bind_ok_iff] at hm
    obtain ⟨rs, w1, h1, h2⟩ := hm
    obtain ⟨hrs, hw1⟩ := loadDueRentals_ok h1
    refine ⟨us, ?_, rfl⟩
    unfold dueRentalsOf
    rw [← hrs, ← hw1]
    exact h2

/-- C10 (idempotence of flagging).  After a successful `Run`, every schedule row
carrying the id of an installment the run selected (issued flag 0, due date `<=`
cutoff, recurring-rental type, and the contract of the filter in manual mode) has
its issued flag set to 1; the same selection on the resulting store is empty; and a
second `Run` with the same cutoff and contract filter on that store leaves the
whole store (arrears, provisioned capital, statuses, schedule and ledger) unchanged
and, unless its query fails, returns an empty update list. -/
theorem flagging_idempotent (F : Nat → Bool) (sinceStart date : Nat) (contract : Int)
    (manual : Bool) (w : World)
    (h : (Run F sinceStart date contract manual w).2.err = none) :
    (∀ row ∈ w.store.contract_schedule,
      row.daily_entry_issued = 0 → row.monthly_date ≤ date →
      row.contract_installment_type_id = 1 → (manual = true → row.contract_id = contract) →
      ∀ row' ∈ (Run F sinceStart date contract manual w).1.store.contract_schedule,
        row'.id = row.id → row'.daily_entry_issued = 1) ∧
    dueRentalsOf (Run F sinceStart date contract manual w).1.store date contract manual = [] ∧
    ∀ (F2 : Nat → Bool) (t2 : Nat),
      (Run F2 t2 date contract manual (Run F sinceStart date contract manual w).1).1.store =
        (Run F sinceStart date contract manual w).1.store ∧
      ((Run F2 t2 date contract manual (Run F sinceStart date contract manual w).1).2.err =
          none →
        (Run F2 t2 date contract manual (Run F sinceStart date contract manual w).1).2 =
          ⟨some [], t2, none⟩) := by
  obtain ⟨us, hloop, -⟩ := Run_ok h
  have hsched := runLoop_schedule F _ _ _ _ hloop
  simp only [] at hsched
  generalize (Run F sinceStart date contract manual w).1 = w1 at hsched ⊢
  have hempty : dueRentalsOf w1.store date contract manual = [] := by
    rcases w1 with ⟨⟨sched, f, t, a⟩, lg⟩
    simp only [dueRentalsOf] at hsched ⊢
    split_ifs at hsched ⊢ with hm
    · exact DueRentalsByContract_flagged w.store sched date contract hsched t f a
    · exact DueRentals_flagged w.store sched date hsched t f a
  refine ⟨?_, hempty, ?_⟩
  · intro row hrow h0 hd ht hc row' hrow' hid
    have hmem : row.id ∈ (dueRentalsOf w.store date contract manual).map (fun r => r.ID) := by
      unfold dueRentalsOf
      split_ifs with hm
      · exact mem_DueRentalsByContract _ _ _ _ hrow h0 hd ht (hc hm)
      · exact mem_DueRentals _ _ _ hrow h0 hd ht
    rw [hsched, List.mem_map] at hrow'
    obtain ⟨row0, -, rfl⟩ := hrow'
    by_cases hm0 : row0.id ∈ (dueRentalsOf w.store date contract manual).map (fun r => r.ID)
    · simp [hm0]
    · simp only [hm0, if_false] at hid
      rw [hid] at hm0
      exact absurd hmem hm0
  · intro F2 t2
    have hload : ∀ w2 rs, loadDueRentals F2 date contract manual w1 = (w2, Except.ok rs) →
        rs = [] ∧ w2.store = w1.store := by
      intro w2 rs hl
      obtain ⟨hrs, hw2⟩ := loadDueRentals_ok hl
      refine ⟨?_, by rw [hw2]⟩
      rw [hrs]
      exact hempty
    have hloadE : ∀ w2 e, loadDueRentals F2 date contract manual w1 = (w2, Except.error e) →
        w2.store = w1.store := by
      intro w2 e hl
      unfold loadDueRentals at hl
      split_ifs at hl
      · exact access_error_store _ _ _ _ _ _ hl
      · exact access_error_store _ _ _ _ _ _ hl
    unfold Run
    rw [DB.bind_apply]
    rcases hl : loadDueRentals F2 date contract manual w1 with ⟨w2, e | rs⟩
    · simp only []
      exact ⟨hloadE _ _ hl, fun hh => by cases hh⟩
    · obtain ⟨rfl, hst⟩ := hload _ _ hl
      exact ⟨hst, fun _ => rfl⟩

/-- Witness of C10: a run with cutoff day 60 over Scenario A selects and flags both
rentals; the same selection on the resulting store is empty and a second run
returns an empty update list. -/
theorem flagging_idempotent_witness :
    (Run noFault 5 60 0 false scenarioA).2 = ⟨some [⟨1, 1, 2⟩, ⟨1, 2, 2⟩], 5, none⟩ ∧
    dueRentalsOf (Run noFault 5 60 0 false scenarioA).1.store 60 0 false = [] ∧
    (Run noFault 9 60 0 false (Run noFault 5 60 0 false scenarioA).1).2 =
      ⟨some [], 9, none⟩ :=
  ⟨by decide!,
    (flagging_idempotent noFault 5 60 0 false scenarioA (by decide!)).2.1,
    ((flagging_idempotent noFault 5 60 0 false scenarioA (by decide!)).2.2 noFault 9).2
      (by decide!)⟩

/-- A run over Scenario A whose fourth data-access operation fails: the log ends
with that operation and the run returns its error, no list and a zero duration. -/
theorem run_fault_example :
    Run (fun n => decide (n = 3)) 5 60 0 false scenarioA =
      (⟨⟨exSchedule, [⟨1, 1, 1, 0, 100, 0, 0, 0, 99⟩], [⟨1, 1, 1, 7⟩], []⟩,
        [(Op.DueRentals, none), (Op.ContractFinancial, none), (Op.InsertTransaction, none),
          (Op.UpdateRecoveryStatus, some (Err.fault 3))]⟩,
        ⟨none, 0, some (Err.fault 3)⟩) := by
  decide!

/-- A run over a store where the due installment has no financial row: the snapshot
read fails with `sql.ErrNoRows` and the run stops there. -/
theorem run_missing_snapshot_example :
    Run noFault 5 60 0 false ⟨⟨exSchedule, [], [], []⟩, []⟩ =
      (⟨⟨exSchedule, [], [], []⟩,
        [(Op.DueRentals, none), (Op.ContractFinancial, some Err.noRows)]⟩,
        ⟨none, 0, some Err.noRows⟩) := by
  decide!

/-! ## The age at the thresholds -/

/-- The age is the `float64` value, not the quotient of the stored decimals: for
(11349.70 + 7966.80 + 2269.94 + 1593.36) / 3863.30 the quotient is 6 and the
computed age is 5.999999999999999, so a contract in Arrears takes the row
`nAge < 6`, with either doubtful flag, and stays in Arrears. -/
theorem age_below_six_example :
    (1134970 / 100 + 796680 / 100 + 226994 / 100 + 159336 / 100 : ℚ) / (386330 / 100) = 6 ∧
    nAge ⟨1, 2, 0, 386330 / 100, 1134970 / 100, 796680 / 100, 0, 99⟩ boundarySixRental =
      Age.fin (6755399441055743 / 1125899906842624) ∧
    (processRental noFault boundarySixRental (boundarySix 0)).2 = Except.ok ⟨1, 2, 2⟩ ∧
    (processRental noFault boundarySixRental (boundarySix 1)).2 = Except.ok ⟨1, 2, 2⟩ := by
  refine ⟨by norm_num, by decide!, by decide!, by decide!⟩

/-- For (37589.42 + 10957.43 + 3417.22 + 996.13) / 4413.35 the quotient is 12 and
the computed age is 11.999999999999998: an NPL contract takes the row `nAge < 12`,
stays NPL and no provision is posted. -/
theorem age_below_twelve_example :
    (3758942 / 100 + 1095743 / 100 + 341722 / 100 + 99613 / 100 : ℚ) / (441335 / 100) = 12 ∧
    nAge ⟨1, 3, 1, 441335 / 100, 3758942 / 100, 1095743 / 100, 0, 99⟩ boundaryTwelveRental =
      Age.fin (6755399441055743 / 562949953421312) ∧
    (processRental noFault boundaryTwelveRental boundaryTwelve).2 = Except.ok ⟨1, 3, 3⟩ ∧
    (processRental noFault boundaryTwelveRental boundaryTwelve).1.store.account_transaction =
      [⟨1, 192, EntryType.DR, 441335 / 100⟩, ⟨1, 185, EntryType.CR, 441335 / 100⟩,
       ⟨1, 188, EntryType.DR, 99613 / 100⟩, ⟨1, 194, EntryType.CR, 99613 / 100⟩] := by
  refine ⟨by norm_num, by decide!, by decide!, by decide!⟩

/-- The rounding also goes the other way: for the `float64` values nearest to
18578.01, 1924.34, 866.91, 3233.56 and 4100.47 the computed age is 6.0, and
the row `nAge >= 6` is taken. -/
theorem age_six_example :
    nAge ⟨1, 2, 1, 410047 / 100, 1857801 / 100, 192434 / 100, 0, 99⟩
        ⟨7, 1, 86691 / 100, 323356 / 100, 20⟩ = Age.fin 6 ∧
    (nAge ⟨1, 2, 1, 410047 / 100, 1857801 / 100, 192434 / 100, 0, 99⟩
        ⟨7, 1, 86691 / 100, 323356 / 100, 20⟩).ge 6 = true := by
  refine ⟨by decide!, by decide!⟩

end Sprinter
